import Mathlib

/-!
Verification of the evaluation score-aggregation and correlation-comparison
engine of `src/eval/eval_service.py` (`EvalService.get_eval_config_score_summary`,
`EvalService.get_eval_configs_score_summary`) and its helpers
(`dataset_ids_in_filter`, `human_score_from_task_run`, `count_human_evals`).

Python dictionaries are embedded as insertion-ordered association lists
(`alistLookup` / `alistInsert`), Python sets of ids as `Finset ℕ`, floats as `ℚ`.
External collaborators (the dataset filter predicate, `string_to_json_key`,
`normalize_rating`) are passed in as function parameters, matching §6 of the
service's interface. Field names follow the source; the source's
`partial_incomplete_counts` and `partially_rated_count` appear here as
`incomplete_counts` and `part_rated_count`.
-/

/-- Lookup in an insertion-ordered association list (Python `dict.get`). -/
def alistLookup {α β : Type} [DecidableEq α] : List (α × β) → α → Option β
  | [], _ => none
  | (k, v) :: rest, key => if key = k then some v else alistLookup rest key

/-- Update-or-append for an insertion-ordered association list
(Python `d[key] = val`): an existing key keeps its position, a new key is
appended at the end. -/
def alistInsert {α β : Type} [DecidableEq α] : List (α × β) → α → β → List (α × β)
  | [], key, val => [(key, val)]
  | (k, v) :: rest, key, val =>
    if key = k then (key, val) :: rest else (k, v) :: alistInsert rest key val

/-- `RequirementRating` (kiln datamodel): the scalar value of one
requirement's human rating. -/
structure RequirementRating where
  value : Option ℚ
deriving DecidableEq

/-- `TaskOutputRating` (kiln datamodel): an optional overall value plus
per-requirement ratings keyed by task-requirement id. -/
structure TaskOutputRating where
  value : Option ℚ
  requirement_ratings : List (ℕ × RequirementRating)
deriving DecidableEq

/-- `TaskOutput`: the part of a task run's output the eval service reads. -/
structure TaskOutput where
  rating : Option TaskOutputRating
deriving DecidableEq

/-- A historical `TaskRun` of the task: its id and its (optionally rated)
output. -/
structure TaskRun where
  id : ℕ
  output : TaskOutput
deriving DecidableEq

/-- `EvalOutputScore`: a declared scoring dimension; `json_key` is the stable
key (`output_score.json_key()` in the source) and `type` the opaque tag fed to
the external `normalize_rating`. -/
structure EvalOutputScore where
  json_key : String
  type : ℕ
deriving DecidableEq

/-- A `TaskRunConfig` of the task; only its id is read by the aggregator. -/
structure TaskRunConfig where
  id : ℕ
deriving DecidableEq

/-- An `EvalRun` record: the scored execution of one dataset item
(`dataset_id`) under an optional run-configuration, with its reported
`scores` dict. -/
structure EvalRun where
  task_run_config_id : Option ℕ
  dataset_id : ℕ
  scores : List (String × ℚ)
deriving DecidableEq

/-- An `EvalConfig` with its stream of `EvalRun`s (`eval_config.runs()`). -/
structure EvalConfig where
  id : ℕ
  runs : List EvalRun
deriving DecidableEq

/-- `ScoreSummary` (models/eval.py). -/
structure ScoreSummary where
  mean_score : ℚ
deriving DecidableEq

/-- `EvalResultSummary` (models/eval.py): per-run-config score summaries,
per-run-config completion fraction, and the expected dataset size. -/
structure EvalResultSummary where
  results : List (ℕ × List (String × ScoreSummary))
  run_config_percent_complete : List (ℕ × ℚ)
  dataset_size : ℕ
deriving DecidableEq

/-- The single error the aggregator can raise itself: the HTTP 400
"No dataset ids in eval set filter" condition. -/
inductive EvalServiceError where
  | emptyDataset
deriving DecidableEq

/-- `EvalService.dataset_ids_in_filter`: the ids of the task's runs selected
by the filter predicate, as a set. -/
def dataset_ids_in_filter (taskRuns : List TaskRun) (filt : TaskRun → Bool) : Finset ℕ :=
  ((taskRuns.filter filt).map TaskRun.id).toFinset

/-- Mutable state of the aggregation loop of `get_eval_config_score_summary`
(lines 378-426 of eval_service.py). -/
structure AggState where
  remaining_expected_dataset_ids : List (ℕ × Finset ℕ)
  incomplete_counts : List (ℕ × ℕ)
  total_scores : List (ℕ × List (String × ℚ))
  score_counts : List (ℕ × List (String × ℕ))
deriving DecidableEq

/-- One iteration of the inner `for output_score in eval.output_scores` loop,
acting on the run-config's slice of `total_scores` / `score_counts`
(`none` = the run-config has no entry yet) plus the `incomplete` flag. -/
def scoreKeyStep (runScores : List (String × ℚ))
    (acc : Option (List (String × ℚ)) × Option (List (String × ℕ)) × Bool)
    (output_score : EvalOutputScore) :
    Option (List (String × ℚ)) × Option (List (String × ℕ)) × Bool :=
  let (tso, sco, incomplete) := acc
  let (tso, sco) := if tso.isNone then (some [], some []) else (tso, sco)
  let tsRC := tso.getD []
  let scRC := sco.getD []
  let key := output_score.json_key
  let (tsRC, scRC) :=
    if (alistLookup tsRC key).isNone then
      (alistInsert tsRC key 0, alistInsert scRC key 0)
    else (tsRC, scRC)
  match alistLookup runScores key with
  | some v =>
      (some (alistInsert tsRC key ((alistLookup tsRC key).getD 0 + v)),
       some (alistInsert scRC key ((alistLookup scRC key).getD 0 + 1)),
       incomplete)
  | none => (some tsRC, some scRC, true)

/-- Processing of one `eval_run` in `get_eval_config_score_summary`
(lines 390-426): skip when there is no run-config id, when the id is not a
key of `remaining_expected_dataset_ids`, or when the dataset id is not in the
run-config's remaining set; otherwise remove the id, accumulate every
declared output score present in the run, and bump the incomplete counter if
any declared score is missing. -/
def processEvalRun (output_scores : List EvalOutputScore) (st : AggState)
    (eval_run : EvalRun) : AggState :=
  match eval_run.task_run_config_id with
  | none => st
  | some run_config_id =>
    match alistLookup st.remaining_expected_dataset_ids run_config_id with
    | none => st
    | some rem =>
      if eval_run.dataset_id ∈ rem then
        let folded := output_scores.foldl (scoreKeyStep eval_run.scores)
          (alistLookup st.total_scores run_config_id,
           alistLookup st.score_counts run_config_id, false)
        { remaining_expected_dataset_ids :=
            alistInsert st.remaining_expected_dataset_ids run_config_id
              (rem.erase eval_run.dataset_id)
          incomplete_counts :=
            if folded.2.2 then
              alistInsert st.incomplete_counts run_config_id
                ((alistLookup st.incomplete_counts run_config_id).getD 0 + 1)
            else st.incomplete_counts
          total_scores :=
            match folded.1 with
            | some m => alistInsert st.total_scores run_config_id m
            | none => st.total_scores
          score_counts :=
            match folded.2.1 with
            | some m => alistInsert st.score_counts run_config_id m
            | none => st.score_counts }
      else st

/-- The initial aggregation state (lines 378-388): every run-config id mapped
to a copy of the expected set and a zero incomplete counter; empty score
dicts. -/
def initAggState (task_runs_configs : List TaskRunConfig)
    (expected_dataset_ids : Finset ℕ) : AggState :=
  { remaining_expected_dataset_ids :=
      task_runs_configs.foldl (fun m rc => alistInsert m rc.id expected_dataset_ids) []
    incomplete_counts :=
      task_runs_configs.foldl (fun m rc => alistInsert m rc.id 0) []
    total_scores := []
    score_counts := [] }

/-- Conversion of the accumulated sums/counts to `ScoreSummary` means
(lines 429-437): a key is kept only when its count is positive. -/
def summaryResults (total_scores : List (ℕ × List (String × ℚ)))
    (score_counts : List (ℕ × List (String × ℕ))) :
    List (ℕ × List (String × ScoreSummary)) :=
  total_scores.map (fun p =>
    (p.1, p.2.foldl (fun acc q =>
      let count := (alistLookup ((alistLookup score_counts p.1).getD []) q.1).getD 0
      if 0 < count then alistInsert acc q.1 ⟨q.2 / (count : ℚ)⟩ else acc) []))

/-- The per-run-config completion fractions (lines 439-447). -/
def percentCompleteMap (task_runs_configs : List TaskRunConfig) (st : AggState)
    (dataset_size : ℕ) : List (ℕ × ℚ) :=
  task_runs_configs.foldl (fun m rc =>
    let incomplete_count := (alistLookup st.incomplete_counts rc.id).getD 0 +
      ((alistLookup st.remaining_expected_dataset_ids rc.id).getD ∅).card
    alistInsert m rc.id (1 - (incomplete_count : ℚ) / (dataset_size : ℚ))) []

/-- `EvalService.get_eval_config_score_summary` (lines 360-453), starting from
the already-resolved collaborators: the task's historical runs, the eval-set
filter predicate, the task's run-configs, and the evaluator's declared output
scores; `eval_runs` is the eval-config's observed run stream. -/
def get_eval_config_score_summary (taskRuns : List TaskRun)
    (eval_set_filter : TaskRun → Bool) (task_runs_configs : List TaskRunConfig)
    (output_scores : List EvalOutputScore) (eval_runs : List EvalRun) :
    Except EvalServiceError EvalResultSummary :=
  let expected_dataset_ids := dataset_ids_in_filter taskRuns eval_set_filter
  if expected_dataset_ids.card = 0 then
    .error .emptyDataset
  else
    let st := eval_runs.foldl (processEvalRun output_scores)
      (initAggState task_runs_configs expected_dataset_ids)
    .ok
      { results := summaryResults st.total_scores st.score_counts
        run_config_percent_complete :=
          percentCompleteMap task_runs_configs st expected_dataset_ids.card
        dataset_size := expected_dataset_ids.card }

/-- Modelled from the spec: `CorrelationScore` of the repository's
`utils/correlation_calculator.py`, which is imported by eval_service.py but
absent from the source snapshot — "a stream of (automated_score, human_score,
normalized_automated_score, normalized_human_score) tuples". -/
structure CorrelationScore where
  measured_score : ℚ
  human_score : ℚ
  normalized_measured_score : ℚ
  normalized_human_score : ℚ
deriving DecidableEq

/-- Modelled from the spec: the `CorrelationCalculator` accumulator of the
missing `utils/correlation_calculator.py`; it holds the stream of score pairs
fed to it so far. -/
structure CorrelationCalculator where
  scores : List CorrelationScore
deriving DecidableEq

/-- Modelled from the spec: `CorrelationCalculator.add_score` appends one
pair to the accumulator. -/
def CorrelationCalculator.add_score (c : CorrelationCalculator)
    (s : CorrelationScore) : CorrelationCalculator :=
  ⟨c.scores ++ [s]⟩

/-- Modelled from the spec: a `CorrelationResult` — "a result that signals
undefined rather than raising or dividing by zero" for degenerate data.
`none` is the undefined signal; since a Pearson coefficient needs a square
root, the defined case carries the exactly-representable squared coefficient
`cov² / (varX · varY)`, which is defined precisely when the coefficient is. -/
structure CorrelationResult where
  correlation : Option ℚ
deriving DecidableEq

/-- Modelled from the spec: the summed squared deviation of the normalized
automated scores from their mean (zero iff the data has zero variance). -/
def CorrelationCalculator.normVarX (c : CorrelationCalculator) : ℚ :=
  let xs := c.scores.map CorrelationScore.normalized_measured_score
  let mx := xs.sum / (xs.length : ℚ)
  (xs.map (fun x => (x - mx) ^ 2)).sum

/-- Modelled from the spec: the summed squared deviation of the normalized
human scores from their mean. -/
def CorrelationCalculator.normVarY (c : CorrelationCalculator) : ℚ :=
  let ys := c.scores.map CorrelationScore.normalized_human_score
  let my := ys.sum / (ys.length : ℚ)
  (ys.map (fun y => (y - my) ^ 2)).sum

/-- Modelled from the spec: `CorrelationCalculator.calculate_correlation`
"computes at minimum a linear correlation coefficient over the normalized
pairs" and "must handle degenerate cases — fewer than 2 pairs, zero-variance
data — by returning a result that signals undefined rather than raising or
dividing by zero". -/
def CorrelationCalculator.calculate_correlation (c : CorrelationCalculator) :
    CorrelationResult :=
  if c.scores.length < 2 then ⟨none⟩
  else if c.normVarX = 0 ∨ c.normVarY = 0 then ⟨none⟩
  else
    let xs := c.scores.map CorrelationScore.normalized_measured_score
    let ys := c.scores.map CorrelationScore.normalized_human_score
    let mx := xs.sum / (xs.length : ℚ)
    let my := ys.sum / (ys.length : ℚ)
    let cov := (List.zipWith (fun x y => (x - mx) * (y - my)) xs ys).sum
    ⟨some (cov ^ 2 / (c.normVarX * c.normVarY))⟩

/-- A task requirement: its display name and id (used to build the
`score_key -> task_requirement_id` map). -/
structure TaskRequirement where
  name : String
  id : ℕ
deriving DecidableEq

/-- `EvalConfigCompareSummary` (models/eval.py); the source's
`partially_rated_count` field is named `part_rated_count` here. -/
structure EvalConfigCompareSummary where
  results : List (ℕ × List (String × CorrelationResult))
  eval_config_percent_complete : List (ℕ × ℚ)
  dataset_size : ℕ
  fully_rated_count : ℕ
  part_rated_count : ℕ
  not_rated_count : ℕ
deriving DecidableEq

/-- `EvalService.human_score_from_task_run` (lines 306-326): the human rating
for one score key on one dataset item, `none` when the output is unrated, the
key maps to no requirement, or that requirement carries no rating. -/
def human_score_from_task_run (task_run : TaskRun) (score_key : String)
    (score_key_to_task_requirement_id : List (String × ℕ)) : Option ℚ :=
  match task_run.output.rating with
  | none => none
  | some rating =>
    if score_key = "overall_rating" then rating.value
    else
      match alistLookup score_key_to_task_requirement_id score_key with
      | none => none
      | some req_id =>
        match alistLookup rating.requirement_ratings req_id with
        | some req_rating => req_rating.value
        | none => none

/-- `EvalService.count_human_evals` (lines 328-358): census of the dataset
items into (fully rated, partially rated, not rated). -/
def count_human_evals (items : List TaskRun)
    (output_scores : List EvalOutputScore)
    (score_key_to_task_requirement_id : List (String × ℕ)) : ℕ × ℕ × ℕ :=
  items.foldl (fun acc dataset_item =>
    let flags := output_scores.foldl (fun (fl : Bool × Bool) output_score =>
      match human_score_from_task_run dataset_item output_score.json_key
          score_key_to_task_requirement_id with
      | none => (false, fl.2)
      | some _ => (fl.1, true)) (true, false)
    if !flags.2 then (acc.1, acc.2.1, acc.2.2 + 1)
    else if flags.1 then (acc.1 + 1, acc.2.1, acc.2.2)
    else (acc.1, acc.2.1 + 1, acc.2.2)) (0, 0, 0)

/-- Mutable state of the comparison loop of `get_eval_configs_score_summary`
(lines 484-548). -/
structure CmpState where
  remaining_expected_dataset_ids : List (ℕ × Finset ℕ)
  correlation_calculators : List (ℕ × List (String × CorrelationCalculator))
deriving DecidableEq

/-- One iteration of the inner `for output_score in eval.output_scores` loop
of the comparator (lines 512-548): feed the pair to the
`(eval_config, score_key)` accumulator only when both the automated score and
the human rating exist. -/
def compareKeyStep (normalize_rating : ℚ → ℕ → ℚ)
    (score_key_to_task_requirement_id : List (String × ℕ))
    (dataset_item : TaskRun) (eval_run : EvalRun) (eval_config_id : ℕ)
    (calcs : List (ℕ × List (String × CorrelationCalculator)))
    (output_score : EvalOutputScore) :
    List (ℕ × List (String × CorrelationCalculator)) :=
  let score_key := output_score.json_key
  let eval_score := alistLookup eval_run.scores score_key
  let human_score := human_score_from_task_run dataset_item score_key
    score_key_to_task_requirement_id
  match human_score, eval_score with
  | some h, some e =>
    let calcs := if (alistLookup calcs eval_config_id).isNone then
        alistInsert calcs eval_config_id []
      else calcs
    let inner := (alistLookup calcs eval_config_id).getD []
    let calculator := (alistLookup inner score_key).getD ⟨[]⟩
    let calculator := calculator.add_score
      ⟨e, h, normalize_rating e output_score.type, normalize_rating h output_score.type⟩
    alistInsert calcs eval_config_id (alistInsert inner score_key calculator)
  | _, _ => calcs

/-- Processing of one `(eval_config.id, eval_run)` in
`get_eval_configs_score_summary` (lines 493-548): skip when the dataset id is
not among the expected items or was already counted for this eval-config;
otherwise mark it seen and run the per-output-score accumulation. -/
def processCompareRun (output_scores : List EvalOutputScore)
    (normalize_rating : ℚ → ℕ → ℚ)
    (score_key_to_task_requirement_id : List (String × ℕ))
    (expected_dataset_items : List (ℕ × TaskRun)) (st : CmpState)
    (p : ℕ × EvalRun) : CmpState :=
  match alistLookup expected_dataset_items p.2.dataset_id with
  | none => st
  | some dataset_item =>
    let rem := (alistLookup st.remaining_expected_dataset_ids p.1).getD ∅
    if p.2.dataset_id ∈ rem then
      { remaining_expected_dataset_ids :=
          alistInsert st.remaining_expected_dataset_ids p.1
            (rem.erase p.2.dataset_id)
        correlation_calculators :=
          output_scores.foldl
            (compareKeyStep normalize_rating score_key_to_task_requirement_id
              dataset_item p.2 p.1)
            st.correlation_calculators }
    else st

/-- Finalization of the accumulators (lines 550-563). -/
def compareResults
    (calcs : List (ℕ × List (String × CorrelationCalculator))) :
    List (ℕ × List (String × CorrelationResult)) :=
  calcs.map (fun p => (p.1, p.2.map (fun q => (q.1, q.2.calculate_correlation))))

/-- The `score_key -> task_requirement_id` map of lines 463-467. -/
def score_key_map (requirements : List TaskRequirement)
    (string_to_json_key : String → String) : List (String × ℕ) :=
  requirements.foldl (fun m tr => alistInsert m (string_to_json_key tr.name) tr.id) []

/-- The `dataset_id -> TaskRun` map of the filtered expected items
(lines 469-472). -/
def expectedItems (taskRuns : List TaskRun)
    (eval_configs_filter : TaskRun → Bool) : List (ℕ × TaskRun) :=
  (taskRuns.filter eval_configs_filter).foldl
    (fun m run => alistInsert m run.id run) []

/-- The initial comparison state (lines 484-490): every eval-config id mapped
to a copy of the expected id set; no calculators. -/
def initCmpState (eval_configs : List EvalConfig)
    (expected_dataset_ids : Finset ℕ) : CmpState :=
  { remaining_expected_dataset_ids := eval_configs.foldl
      (fun m ec => alistInsert m ec.id expected_dataset_ids) []
    correlation_calculators := [] }

/-- The nested loop of lines 492-548: every eval-config's run stream folded
through `processCompareRun`. -/
def cmpFold (output_scores : List EvalOutputScore)
    (normalize_rating : ℚ → ℕ → ℚ)
    (score_key_to_task_requirement_id : List (String × ℕ))
    (expected_dataset_items : List (ℕ × TaskRun))
    (eval_configs : List EvalConfig) (st0 : CmpState) : CmpState :=
  eval_configs.foldl (fun acc ec =>
    ec.runs.foldl (fun acc2 r =>
      processCompareRun output_scores normalize_rating
        score_key_to_task_requirement_id expected_dataset_items acc2 (ec.id, r))
      acc) st0

/-- The per-eval-config completion fractions (lines 565-570). -/
def cmpPercentMap (eval_configs : List EvalConfig) (st : CmpState)
    (dataset_size : ℕ) : List (ℕ × ℚ) :=
  eval_configs.foldl (fun m ec =>
    alistInsert m ec.id
      (1 - (((alistLookup st.remaining_expected_dataset_ids ec.id).getD ∅).card : ℚ) /
        (dataset_size : ℚ))) []

/-- `EvalService.get_eval_configs_score_summary` (lines 455-586), starting
from the already-resolved collaborators: the task's historical runs, its
requirements, the external `string_to_json_key` and `normalize_rating`
functions, the evaluator's declared output scores, the eval-configs filter
predicate, and the evaluator's eval-configs with their run streams. -/
def get_eval_configs_score_summary (taskRuns : List TaskRun)
    (requirements : List TaskRequirement)
    (string_to_json_key : String → String)
    (output_scores : List EvalOutputScore)
    (normalize_rating : ℚ → ℕ → ℚ)
    (eval_configs_filter : TaskRun → Bool)
    (eval_configs : List EvalConfig) : EvalConfigCompareSummary :=
  let score_key_to_task_requirement_id := score_key_map requirements string_to_json_key
  let expected_dataset_items := expectedItems taskRuns eval_configs_filter
  let expected_dataset_ids := (expected_dataset_items.map Prod.fst).toFinset
  if expected_dataset_ids.card = 0 then
    { results := []
      eval_config_percent_complete := []
      dataset_size := 0
      fully_rated_count := 0
      part_rated_count := 0
      not_rated_count := 0 }
  else
    let st := cmpFold output_scores normalize_rating
      score_key_to_task_requirement_id expected_dataset_items eval_configs
      (initCmpState eval_configs expected_dataset_ids)
    let census := count_human_evals (expected_dataset_items.map Prod.snd)
      output_scores score_key_to_task_requirement_id
    { results := compareResults st.correlation_calculators
      eval_config_percent_complete :=
        cmpPercentMap eval_configs st expected_dataset_ids.card
      dataset_size := expected_dataset_ids.card
      fully_rated_count := census.1
      part_rated_count := census.2.1
      not_rated_count := census.2.2 }

/-- C4: `get_eval_config_score_summary` raises the EmptyDataset condition
(the 400-class error) if and only if the eval-set filter applied to the
task's historical runs selects zero dataset-item ids; in the error case the
`Except` result carries no partial summary, the failure happening before any
run is processed. -/
theorem aggregation_requires_nonempty_expected_set
    (taskRuns : List TaskRun) (eval_set_filter : TaskRun → Bool)
    (task_runs_configs : List TaskRunConfig)
    (output_scores : List EvalOutputScore) (eval_runs : List EvalRun) :
    get_eval_config_score_summary taskRuns eval_set_filter task_runs_configs
        output_scores eval_runs = .error .emptyDataset ↔
      dataset_ids_in_filter taskRuns eval_set_filter = ∅ := by
  unfold get_eval_config_score_summary
  by_cases h : (dataset_ids_in_filter taskRuns eval_set_filter).card = 0
  · simp [h, Finset.card_eq_zero.mp h]
  · simp only [h, if_false]
    constructor
    · intro hc
      exact absurd hc (by simp)
    · intro hc
      exact absurd (by simp [hc] : (dataset_ids_in_filter taskRuns eval_set_filter).card = 0) h

/-- C5: when the eval-configs filter matches none of the task's historical
runs, `get_eval_configs_score_summary` returns (without raising) the summary
with `dataset_size = 0`, empty results, empty percent-complete map, and all
three rating-census counts at 0. -/
theorem graceful_empty_comparison
    (taskRuns : List TaskRun) (requirements : List TaskRequirement)
    (string_to_json_key : String → String)
    (output_scores : List EvalOutputScore) (normalize_rating : ℚ → ℕ → ℚ)
    (eval_configs_filter : TaskRun → Bool) (eval_configs : List EvalConfig)
    (h : taskRuns.filter eval_configs_filter = []) :
    get_eval_configs_score_summary taskRuns requirements string_to_json_key
        output_scores normalize_rating eval_configs_filter eval_configs =
      ⟨[], [], 0, 0, 0, 0⟩ := by
  unfold get_eval_configs_score_summary
  simp [expectedItems, h]

/-- Witness for C5 at a concrete input: one historical run, a filter that
matches nothing. -/
theorem graceful_empty_comparison_witness :
    List.filter (fun _ => false) [(⟨1, ⟨none⟩⟩ : TaskRun)] = [] ∧
      get_eval_configs_score_summary [⟨1, ⟨none⟩⟩] [] id [⟨"acc", 0⟩]
        (fun q _ => q) (fun _ => false) [⟨20, []⟩] = ⟨[], [], 0, 0, 0, 0⟩ :=
  ⟨by decide,
   graceful_empty_comparison [⟨1, ⟨none⟩⟩] [] id [⟨"acc", 0⟩] (fun q _ => q)
     (fun _ => false) [⟨20, []⟩] (by decide)⟩

/-- C7: finalizing a degenerate accumulator — fewer than 2 pairs, or
zero-variance data on either side — yields the explicit undefined signal
(`correlation = none`); `calculate_correlation` is total, so degenerate data
never surfaces as a thrown failure. -/
theorem degenerate_correlation_signals_undefined (c : CorrelationCalculator)
    (h : c.scores.length < 2 ∨ c.normVarX = 0 ∨ c.normVarY = 0) :
    c.calculate_correlation.correlation = none := by
  unfold CorrelationCalculator.calculate_correlation
  by_cases h2 : c.scores.length < 2
  · simp [h2]
  · simp [h2, h.resolve_left h2]

/-- Witness for C7 at a concrete input: the empty accumulator has fewer than
2 pairs and finalizes to the undefined signal. -/
theorem degenerate_correlation_signals_undefined_witness :
    ((⟨[]⟩ : CorrelationCalculator).scores.length < 2 ∨
        (⟨[]⟩ : CorrelationCalculator).normVarX = 0 ∨
        (⟨[]⟩ : CorrelationCalculator).normVarY = 0) ∧
      (⟨[]⟩ : CorrelationCalculator).calculate_correlation.correlation = none :=
  ⟨Or.inl (by decide),
   degenerate_correlation_signals_undefined ⟨[]⟩ (Or.inl (by decide))⟩

/-- C9: the concrete aggregation scenario — run-config 10 with expected ids
{1, 2, 3} and observed runs (1, acc=1), a duplicate (1, acc=1), and (2, no
scores) — reports mean acc = 1 for run-config 10 with accumulated sum 1 and
count 1 (the duplicate and the scoreless run contribute nothing to the sum),
incomplete count 1, remaining expected ids {3}, and completion fraction
1 − (1+1)/3 = 1/3. -/
theorem concrete_aggregation_scenario :
    get_eval_config_score_summary [⟨1, ⟨none⟩⟩, ⟨2, ⟨none⟩⟩, ⟨3, ⟨none⟩⟩]
        (fun _ => true) [⟨10⟩] [⟨"acc", 0⟩]
        [⟨some 10, 1, [("acc", 1)]⟩, ⟨some 10, 1, [("acc", 1)]⟩, ⟨some 10, 2, []⟩] =
      .ok ⟨[(10, [("acc", ⟨1⟩)])], [(10, 1/3)], 3⟩ ∧
    List.foldl (processEvalRun [⟨"acc", 0⟩])
        (initAggState [⟨10⟩]
          (dataset_ids_in_filter [⟨1, ⟨none⟩⟩, ⟨2, ⟨none⟩⟩, ⟨3, ⟨none⟩⟩] (fun _ => true)))
        [⟨some 10, 1, [("acc", 1)]⟩, ⟨some 10, 1, [("acc", 1)]⟩, ⟨some 10, 2, []⟩] =
      ⟨[(10, {3})], [(10, 1)], [(10, [("acc", 1)])], [(10, [("acc", 1)])]⟩ := by
  constructor
  · simp [get_eval_config_score_summary, dataset_ids_in_filter, initAggState,
      processEvalRun, scoreKeyStep, summaryResults, percentCompleteMap,
      alistLookup, alistInsert]
    norm_num
  · simp [dataset_ids_in_filter, initAggState, processEvalRun, scoreKeyStep,
      alistLookup, alistInsert]

section AListLemmas

variable {α β γ : Type} [DecidableEq α]

theorem alistLookup_insert (m : List (α × β)) (k k' : α) (v : β) :
    alistLookup (alistInsert m k v) k' = if k' = k then some v else alistLookup m k' := by
  induction m with
  | nil => simp [alistInsert, alistLookup]
  | cons p rest ih =>
    obtain ⟨a, b⟩ := p
    by_cases h : k = a
    · subst h
      by_cases h' : k' = k <;> simp [alistInsert, alistLookup, h']
    · by_cases h' : k' = a
      · subst h'
        rw [if_neg (show ¬k' = k from fun hh => h hh.symm)]
        simp [alistInsert, h, alistLookup]
      · simp [alistInsert, alistLookup, h, h', ih]

theorem alistLookup_eq_none_iff (m : List (α × β)) (k : α) :
    alistLookup m k = none ↔ k ∉ m.map Prod.fst := by
  induction m with
  | nil => simp [alistLookup]
  | cons p rest ih =>
    obtain ⟨a, b⟩ := p
    by_cases h : k = a <;> simp [alistLookup, h, ih]

theorem alistInsert_mem_keys {m : List (α × β)} {k k' : α} {v : β} :
    k' ∈ (alistInsert m k v).map Prod.fst ↔ k' ∈ m.map Prod.fst ∨ k' = k := by
  induction m with
  | nil => simp [alistInsert]
  | cons p rest ih =>
    obtain ⟨a, b⟩ := p
    by_cases hk : k = a
    · subst hk
      by_cases h' : k' = k
      · simp [alistInsert, h']
      · simp [alistInsert, h']
    · simp [alistInsert, hk, ih]
      tauto

theorem alistInsert_keys_nodup {m : List (α × β)} {k : α} {v : β}
    (h : (m.map Prod.fst).Nodup) : ((alistInsert m k v).map Prod.fst).Nodup := by
  induction m with
  | nil => simp [alistInsert]
  | cons p rest ih =>
    obtain ⟨a, b⟩ := p
    rw [List.map_cons, List.nodup_cons] at h
    by_cases hk : k = a
    · subst hk
      simp [alistInsert, h.1, h.2]
    · have hmem : a ∉ (alistInsert rest k v).map Prod.fst := by
        intro hm
        rcases alistInsert_mem_keys.mp hm with hr | hr
        · exact h.1 hr
        · exact hk hr.symm
      rw [show alistInsert ((a, b) :: rest) k v = (a, b) :: alistInsert rest k v from by
        simp [alistInsert, hk]]
      simp only [List.map_cons, List.nodup_cons]
      exact ⟨hmem, ih h.2⟩

theorem lookup_foldl_insert_of_not_mem (f : γ → α) (g : α → β) (l : List γ)
    (m0 : List (α × β)) (k : α) (h : k ∉ l.map f) :
    alistLookup (l.foldl (fun m x => alistInsert m (f x) (g (f x))) m0) k =
      alistLookup m0 k := by
  induction l generalizing m0 with
  | nil => simp
  | cons x xs ih =>
    simp at h
    simp only [List.foldl_cons]
    rw [ih _ (by simpa using h.2), alistLookup_insert, if_neg (by simpa using h.1)]

theorem lookup_foldl_insert_of_mem (f : γ → α) (g : α → β) (l : List γ)
    (m0 : List (α × β)) (k : α) (h : k ∈ l.map f) :
    alistLookup (l.foldl (fun m x => alistInsert m (f x) (g (f x))) m0) k =
      some (g k) := by
  induction l generalizing m0 with
  | nil => simp at h
  | cons x xs ih =>
    simp only [List.foldl_cons]
    by_cases hx : k ∈ xs.map f
    · exact ih _ hx
    · simp at h
      rcases h with h | h
      · subst h
        rw [lookup_foldl_insert_of_not_mem _ _ _ _ _ hx, alistLookup_insert, if_pos rfl]
      · exact absurd (by simpa using h) hx

end AListLemmas

/-- The slice of the aggregation state belonging to one run-config id. -/
@[ext]
structure RCView where
  rem : Option (Finset ℕ)
  pinc : ℕ
  ts : Option (List (String × ℚ))
  sc : Option (List (String × ℕ))
deriving DecidableEq

/-- Project the aggregation state onto one run-config id. -/
def aggView (st : AggState) (rc : ℕ) : RCView :=
  ⟨alistLookup st.remaining_expected_dataset_ids rc,
   (alistLookup st.incomplete_counts rc).getD 0,
   alistLookup st.total_scores rc,
   alistLookup st.score_counts rc⟩

/-- The action of `processEvalRun` on the slice of one run-config id. -/
def rcStep (output_scores : List EvalOutputScore) (rc : ℕ) (v : RCView)
    (er : EvalRun) : RCView :=
  if er.task_run_config_id = some rc then
    match v.rem with
    | none => v
    | some rem =>
      if er.dataset_id ∈ rem then
        let folded := output_scores.foldl (scoreKeyStep er.scores) (v.ts, v.sc, false)
        ⟨some (rem.erase er.dataset_id),
         if folded.2.2 then v.pinc + 1 else v.pinc,
         folded.1, folded.2.1⟩
      else v
  else v

theorem scoreKeyStep_fst_isSome (rs : List (String × ℚ))
    (acc : Option (List (String × ℚ)) × Option (List (String × ℕ)) × Bool)
    (os : EvalOutputScore) : ((scoreKeyStep rs acc os).1).isSome := by
  rcases acc with ⟨tso, sco, b⟩
  cases hl : alistLookup rs os.json_key <;>
    simp [scoreKeyStep, hl]

theorem scoreKeyStep_snd_isSome (rs : List (String × ℚ))
    (acc : Option (List (String × ℚ)) × Option (List (String × ℕ)) × Bool)
    (os : EvalOutputScore) : ((scoreKeyStep rs acc os).2.1).isSome := by
  rcases acc with ⟨tso, sco, b⟩
  cases hl : alistLookup rs os.json_key <;>
    simp [scoreKeyStep, hl]

theorem foldScore_fst_isSome (rs : List (String × ℚ)) (l : List EvalOutputScore) :
    ∀ acc, (acc.1).isSome →
      ((l.foldl (scoreKeyStep rs) acc).1).isSome := by
  induction l with
  | nil => intro acc h; simpa using h
  | cons x xs ih =>
    intro acc _
    exact ih _ (scoreKeyStep_fst_isSome rs acc x)

theorem foldScore_snd_isSome (rs : List (String × ℚ)) (l : List EvalOutputScore) :
    ∀ acc, (acc.2.1).isSome →
      ((l.foldl (scoreKeyStep rs) acc).2.1).isSome := by
  induction l with
  | nil => intro acc h; simpa using h
  | cons x xs ih =>
    intro acc _
    exact ih _ (scoreKeyStep_snd_isSome rs acc x)

theorem foldScore_eq_of_fst_none {rs : List (String × ℚ)}
    {l : List EvalOutputScore}
    {acc : Option (List (String × ℚ)) × Option (List (String × ℕ)) × Bool}
    (h : ((l.foldl (scoreKeyStep rs) acc).1) = none) :
    l.foldl (scoreKeyStep rs) acc = acc := by
  cases l with
  | nil => rfl
  | cons x xs =>
    exfalso
    have hs := foldScore_fst_isSome rs xs (scoreKeyStep rs acc x)
      (scoreKeyStep_fst_isSome rs acc x)
    rw [show (x :: xs).foldl (scoreKeyStep rs) acc
      = xs.foldl (scoreKeyStep rs) (scoreKeyStep rs acc x) from rfl] at h
    rw [h] at hs
    simp at hs

theorem foldScore_eq_of_snd_none {rs : List (String × ℚ)}
    {l : List EvalOutputScore}
    {acc : Option (List (String × ℚ)) × Option (List (String × ℕ)) × Bool}
    (h : ((l.foldl (scoreKeyStep rs) acc).2.1) = none) :
    l.foldl (scoreKeyStep rs) acc = acc := by
  cases l with
  | nil => rfl
  | cons x xs =>
    exfalso
    have hs := foldScore_snd_isSome rs xs (scoreKeyStep rs acc x)
      (scoreKeyStep_snd_isSome rs acc x)
    rw [show (x :: xs).foldl (scoreKeyStep rs) acc
      = xs.foldl (scoreKeyStep rs) (scoreKeyStep rs acc x) from rfl] at h
    rw [h] at hs
    simp at hs

theorem aggView_processEvalRun (os : List EvalOutputScore) (st : AggState)
    (er : EvalRun) (rc : ℕ) :
    aggView (processEvalRun os st er) rc = rcStep os rc (aggView st rc) er := by
  cases hcfg : er.task_run_config_id with
  | none => simp [processEvalRun, rcStep, hcfg]
  | some rcid =>
    by_cases hrc : rcid = rc
    · subst hrc
      cases hrem : alistLookup st.remaining_expected_dataset_ids rcid with
      | none => simp [processEvalRun, rcStep, hcfg, hrem, aggView]
      | some rem =>
        by_cases hmem : er.dataset_id ∈ rem
        · simp only [processEvalRun, hcfg, hrem, hmem, if_pos, rcStep, aggView]
          refine RCView.ext ?_ ?_ ?_ ?_
          · simp [alistLookup_insert]
          · by_cases hflag : (os.foldl (scoreKeyStep er.scores)
              (alistLookup st.total_scores rcid, alistLookup st.score_counts rcid, false)).2.2
            · simp [hflag, alistLookup_insert]
            · simp [hflag]
          · cases hts : (os.foldl (scoreKeyStep er.scores)
              (alistLookup st.total_scores rcid, alistLookup st.score_counts rcid, false)).1 with
            | some m => simp [hts, alistLookup_insert]
            | none =>
              have := foldScore_eq_of_fst_none hts
              simp [hts, this]
              rw [this] at hts
              exact hts.symm ▸ rfl
          · cases hsc : (os.foldl (scoreKeyStep er.scores)
              (alistLookup st.total_scores rcid, alistLookup st.score_counts rcid, false)).2.1 with
            | some m => simp [hsc, alistLookup_insert]
            | none =>
              have := foldScore_eq_of_snd_none hsc
              simp [hsc, this]
              rw [this] at hsc
              exact hsc.symm ▸ rfl
        · simp [processEvalRun, rcStep, hcfg, hrem, hmem, aggView]
    · have hne : ¬ (some rcid = some rc) := by simpa using hrc
      cases hrem : alistLookup st.remaining_expected_dataset_ids rcid with
      | none => simp [processEvalRun, rcStep, hcfg, hrem, hne, aggView]
      | some rem =>
        by_cases hmem : er.dataset_id ∈ rem
        · simp only [processEvalRun, hcfg, hrem, hmem, if_pos, rcStep, hne, if_false, aggView]
          refine RCView.ext ?_ ?_ ?_ ?_
          · simp [alistLookup_insert, hrc, Ne.symm hrc]
          · by_cases hflag : (os.foldl (scoreKeyStep er.scores)
              (alistLookup st.total_scores rcid, alistLookup st.score_counts rcid, false)).2.2
            · simp [hflag, alistLookup_insert, Ne.symm hrc]
            · simp [hflag]
          · cases hts : (os.foldl (scoreKeyStep er.scores)
              (alistLookup st.total_scores rcid, alistLookup st.score_counts rcid, false)).1 with
            | some m => simp [hts, alistLookup_insert, Ne.symm hrc]
            | none => simp [hts]
          · cases hsc : (os.foldl (scoreKeyStep er.scores)
              (alistLookup st.total_scores rcid, alistLookup st.score_counts rcid, false)).2.1 with
            | some m => simp [hsc, alistLookup_insert, Ne.symm hrc]
            | none => simp [hsc]
        · simp [processEvalRun, rcStep, hcfg, hrem, hmem, hne, aggView]

theorem aggView_foldl (os : List EvalOutputScore) (runs : List EvalRun) :
    ∀ st rc, aggView (runs.foldl (processEvalRun os) st) rc =
      runs.foldl (rcStep os rc) (aggView st rc) := by
  induction runs with
  | nil => intro st rc; rfl
  | cons r rs ih =>
    intro st rc
    simp only [List.foldl_cons]
    rw [ih, aggView_processEvalRun]

/-- The subsequence of the run stream that is counted for run-config `rc`
(present config id, expected dataset id, first occurrence wins), tracking the
shrinking remaining-id set. -/
def countedFor (rc : ℕ) (rem : Finset ℕ) : List EvalRun → List EvalRun
  | [] => []
  | r :: rs =>
    if r.task_run_config_id = some rc ∧ r.dataset_id ∈ rem then
      r :: countedFor rc (rem.erase r.dataset_id) rs
    else countedFor rc rem rs

/-- The remaining-id set of run-config `rc` after processing the stream. -/
def remAfter (rc : ℕ) (rem : Finset ℕ) : List EvalRun → Finset ℕ
  | [] => rem
  | r :: rs =>
    if r.task_run_config_id = some rc ∧ r.dataset_id ∈ rem then
      remAfter rc (rem.erase r.dataset_id) rs
    else remAfter rc rem rs

/-- A counted run is incomplete when it misses at least one declared score
key. -/
def runIncomplete (output_scores : List EvalOutputScore) (r : EvalRun) : Bool :=
  output_scores.any (fun o => (alistLookup r.scores o.json_key).isNone)

/-- Replay the per-run score accumulation (the inner loop of
`processEvalRun`) over a list of counted runs. -/
def applyRuns (output_scores : List EvalOutputScore) :
    List EvalRun → Option (List (String × ℚ)) × Option (List (String × ℕ)) →
      Option (List (String × ℚ)) × Option (List (String × ℕ))
  | [], a => a
  | r :: rs, a =>
    let f := output_scores.foldl (scoreKeyStep r.scores) (a.1, a.2, false)
    applyRuns output_scores rs (f.1, f.2.1)

/-- The sum of the values reported for key `sk` over a list of runs (runs
without the key contribute nothing). -/
def keySum (sk : String) (runs : List EvalRun) : ℚ :=
  (runs.filterMap (fun r => alistLookup r.scores sk)).sum

/-- The number of runs in a list that report key `sk`. -/
def keyCount (sk : String) (runs : List EvalRun) : ℕ :=
  runs.countP (fun r => (alistLookup r.scores sk).isSome)

theorem scoreKeyStep_flag (rs : List (String × ℚ))
    (acc : Option (List (String × ℚ)) × Option (List (String × ℕ)) × Bool)
    (o : EvalOutputScore) :
    (scoreKeyStep rs acc o).2.2 =
      (acc.2.2 || (alistLookup rs o.json_key).isNone) := by
  rcases acc with ⟨tso, sco, b⟩
  cases hl : alistLookup rs o.json_key <;> simp [scoreKeyStep, hl]

theorem foldScore_flag (rs : List (String × ℚ)) (l : List EvalOutputScore) :
    ∀ acc, ((l.foldl (scoreKeyStep rs) acc).2.2) =
      (acc.2.2 || l.any (fun o => (alistLookup rs o.json_key).isNone)) := by
  induction l with
  | nil => simp
  | cons o os ih =>
    intro acc
    simp only [List.foldl_cons, List.any_cons]
    rw [ih, scoreKeyStep_flag, Bool.or_assoc]

theorem rcStep_foldl_char (os : List EvalOutputScore) (rc : ℕ)
    (runs : List EvalRun) :
    ∀ (rem : Finset ℕ) (p : ℕ) (ts : Option (List (String × ℚ)))
      (sc : Option (List (String × ℕ))),
    runs.foldl (rcStep os rc) ⟨some rem, p, ts, sc⟩ =
      ⟨some (remAfter rc rem runs),
       p + (countedFor rc rem runs).countP (runIncomplete os),
       (applyRuns os (countedFor rc rem runs) (ts, sc)).1,
       (applyRuns os (countedFor rc rem runs) (ts, sc)).2⟩ := by
  induction runs with
  | nil =>
    intro rem p ts sc
    simp [remAfter, countedFor, applyRuns]
  | cons r rs ih =>
    intro rem p ts sc
    by_cases hit : r.task_run_config_id = some rc ∧ r.dataset_id ∈ rem
    · have hstep : rcStep os rc ⟨some rem, p, ts, sc⟩ r =
        ⟨some (rem.erase r.dataset_id),
         if (os.foldl (scoreKeyStep r.scores) (ts, sc, false)).2.2 then p + 1 else p,
         (os.foldl (scoreKeyStep r.scores) (ts, sc, false)).1,
         (os.foldl (scoreKeyStep r.scores) (ts, sc, false)).2.1⟩ := by
        simp [rcStep, hit.1, hit.2]
      rw [List.foldl_cons, hstep, ih]
      have hcount : countedFor rc rem (r :: rs) =
          r :: countedFor rc (rem.erase r.dataset_id) rs := by
        simp [countedFor, hit.1, hit.2]
      have hrem : remAfter rc rem (r :: rs) =
          remAfter rc (rem.erase r.dataset_id) rs := by
        simp [remAfter, hit.1, hit.2]
      have hflag : (os.foldl (scoreKeyStep r.scores) (ts, sc, false)).2.2 =
          runIncomplete os r := by
        rw [foldScore_flag]
        simp [runIncomplete]
      refine RCView.ext ?_ ?_ ?_ ?_
      · rw [hrem]
      · rw [hcount, List.countP_cons, hflag]
        by_cases hinc : runIncomplete os r <;> simp [hinc] <;> omega
      · rw [hcount]
        rfl
      · rw [hcount]
        rfl
    · have hstep : rcStep os rc ⟨some rem, p, ts, sc⟩ r = ⟨some rem, p, ts, sc⟩ := by
        by_cases hcfg : r.task_run_config_id = some rc
        · have hmem : ¬ r.dataset_id ∈ rem := fun hm => hit ⟨hcfg, hm⟩
          simp [rcStep, hcfg, hmem]
        · simp [rcStep, hcfg]
      rw [List.foldl_cons, hstep, ih]
      have hcount : countedFor rc rem (r :: rs) = countedFor rc rem rs := by
        simp only [countedFor, if_neg hit]
      have hrem : remAfter rc rem (r :: rs) = remAfter rc rem rs := by
        simp only [remAfter, if_neg hit]
      rw [hcount, hrem]

theorem keySum_cons (sk : String) (r : EvalRun) (l : List EvalRun) :
    keySum sk (r :: l) = (alistLookup r.scores sk).getD 0 + keySum sk l := by
  unfold keySum
  cases h : alistLookup r.scores sk <;> simp [List.filterMap_cons, h]

theorem keyCount_cons (sk : String) (r : EvalRun) (l : List EvalRun) :
    keyCount sk (r :: l) =
      (if (alistLookup r.scores sk).isSome then 1 else 0) + keyCount sk l := by
  unfold keyCount
  rw [List.countP_cons]
  by_cases h : (alistLookup r.scores sk).isSome <;> simp [h] <;> omega

theorem scoreKeyStep_lookup_self (rs : List (String × ℚ))
    (a : Option (List (String × ℚ)) × Option (List (String × ℕ)) × Bool)
    (o : EvalOutputScore)
    (hsync : (alistLookup ((a.1).getD []) o.json_key).isSome ↔
      (alistLookup ((a.2.1).getD []) o.json_key).isSome) :
    alistLookup (((scoreKeyStep rs a o).1).getD []) o.json_key =
      some ((alistLookup ((a.1).getD []) o.json_key).getD 0 +
        (alistLookup rs o.json_key).getD 0) ∧
    alistLookup (((scoreKeyStep rs a o).2.1).getD []) o.json_key =
      some ((alistLookup ((a.2.1).getD []) o.json_key).getD 0 +
        if (alistLookup rs o.json_key).isSome then 1 else 0) := by
  rcases a with ⟨tso, sco, b⟩
  cases hts : tso with
  | none =>
    simp only [hts] at hsync
    simp only [Option.getD_none, alistLookup] at hsync
    have hsc : alistLookup (sco.getD []) o.json_key = none := by
      cases hv : alistLookup (sco.getD []) o.json_key with
      | none => rfl
      | some w => exact absurd (hsync.mpr (by simp [hv])) (by simp)
    cases hl : alistLookup rs o.json_key <;>
      simp [scoreKeyStep, hts, hl, hsc, alistLookup_insert, alistLookup]
  | some m =>
    cases hm : alistLookup m o.json_key with
    | none =>
      have hsc : alistLookup (sco.getD []) o.json_key = none := by
        cases hv : alistLookup (sco.getD []) o.json_key with
        | none => rfl
        | some w =>
          exfalso
          have := hsync.mpr (by simp [hv])
          rw [hts] at this
          simp [hm] at this
      cases hl : alistLookup rs o.json_key <;>
        simp [scoreKeyStep, hts, hm, hl, hsc, alistLookup_insert]
    | some w =>
      have hsc : ∃ w', alistLookup (sco.getD []) o.json_key = some w' := by
        have := hsync.mp (by rw [hts]; simp [hm])
        cases hv : alistLookup (sco.getD []) o.json_key with
        | none => rw [hv] at this; simp at this
        | some w' => exact ⟨w', rfl⟩
      obtain ⟨w', hw'⟩ := hsc
      cases hl : alistLookup rs o.json_key <;>
        simp [scoreKeyStep, hts, hm, hl, hw', alistLookup_insert]

theorem scoreKeyStep_lookup_ne (rs : List (String × ℚ))
    (a : Option (List (String × ℚ)) × Option (List (String × ℕ)) × Bool)
    (o : EvalOutputScore) (sk : String) (hne : ¬ sk = o.json_key)
    (hmap : a.1 = none → a.2.1 = none) :
    alistLookup (((scoreKeyStep rs a o).1).getD []) sk =
      alistLookup ((a.1).getD []) sk ∧
    alistLookup (((scoreKeyStep rs a o).2.1).getD []) sk =
      alistLookup ((a.2.1).getD []) sk := by
  rcases a with ⟨tso, sco, b⟩
  cases hts : tso with
  | none =>
    have hsco : sco = none := hmap (by simp [hts])
    cases hm : alistLookup ([] : List (String × ℚ)) o.json_key <;>
    cases hl : alistLookup rs o.json_key <;>
      simp [scoreKeyStep, hts, hsco, hl, alistLookup_insert, hne, alistLookup]
  | some m =>
    cases hm : alistLookup m o.json_key with
    | none =>
      cases hl : alistLookup rs o.json_key <;>
        simp [scoreKeyStep, hts, hm, hl, alistLookup_insert, hne]
    | some w =>
      cases hl : alistLookup rs o.json_key <;>
        simp [scoreKeyStep, hts, hm, hl, alistLookup_insert, hne]

theorem scoreKeyStep_map_some (rs : List (String × ℚ))
    (a : Option (List (String × ℚ)) × Option (List (String × ℕ)) × Bool)
    (o : EvalOutputScore) :
    ((scoreKeyStep rs a o).1).isSome ∧ ((scoreKeyStep rs a o).2.1).isSome :=
  ⟨scoreKeyStep_fst_isSome rs a o, scoreKeyStep_snd_isSome rs a o⟩

theorem foldScore_lookup_of_not_mem (rs : List (String × ℚ)) (sk : String)
    (l : List EvalOutputScore) (h : sk ∉ l.map EvalOutputScore.json_key) :
    ∀ a, (a.1 = none → a.2.1 = none) →
      alistLookup (((l.foldl (scoreKeyStep rs) a).1).getD []) sk =
        alistLookup ((a.1).getD []) sk ∧
      alistLookup (((l.foldl (scoreKeyStep rs) a).2.1).getD []) sk =
        alistLookup ((a.2.1).getD []) sk := by
  induction l with
  | nil => intro a _; exact ⟨rfl, rfl⟩
  | cons o os ih =>
    intro a hmap
    simp only [List.map_cons, List.mem_cons] at h
    push_neg at h
    have hstep := scoreKeyStep_lookup_ne rs a o sk h.1 hmap
    have hmap' : (scoreKeyStep rs a o).1 = none → (scoreKeyStep rs a o).2.1 = none := by
      intro hn
      have hs := scoreKeyStep_fst_isSome rs a o
      rw [hn] at hs
      simp at hs
    have := ih h.2 (scoreKeyStep rs a o) hmap'
    rw [List.foldl_cons]
    exact ⟨this.1.trans hstep.1, this.2.trans hstep.2⟩

theorem foldScore_lookup_of_mem (rs : List (String × ℚ)) (sk : String)
    (l : List EvalOutputScore) (hmem : sk ∈ l.map EvalOutputScore.json_key)
    (hnd : (l.map EvalOutputScore.json_key).Nodup) :
    ∀ a, (a.1 = none → a.2.1 = none) →
      ((alistLookup ((a.1).getD []) sk).isSome ↔
        (alistLookup ((a.2.1).getD []) sk).isSome) →
      alistLookup (((l.foldl (scoreKeyStep rs) a).1).getD []) sk =
        some ((alistLookup ((a.1).getD []) sk).getD 0 +
          (alistLookup rs sk).getD 0) ∧
      alistLookup (((l.foldl (scoreKeyStep rs) a).2.1).getD []) sk =
        some ((alistLookup ((a.2.1).getD []) sk).getD 0 +
          if (alistLookup rs sk).isSome then 1 else 0) := by
  induction l with
  | nil => simp at hmem
  | cons o os ih =>
    intro a hmap hsync
    simp only [List.map_cons, List.nodup_cons] at hnd
    rw [List.foldl_cons]
    by_cases ho : sk = o.json_key
    · subst ho
      have hself := scoreKeyStep_lookup_self rs a o hsync
      have hmapo : (scoreKeyStep rs a o).1 = none → (scoreKeyStep rs a o).2.1 = none := by
        intro hn
        have hs := scoreKeyStep_fst_isSome rs a o
        rw [hn] at hs
        simp at hs
      have hrest := foldScore_lookup_of_not_mem rs o.json_key os hnd.1
        (scoreKeyStep rs a o) hmapo
      exact ⟨hrest.1.trans hself.1, hrest.2.trans hself.2⟩
    · have hmem' : sk ∈ os.map EvalOutputScore.json_key := by
        simp only [List.map_cons, List.mem_cons] at hmem
        rcases hmem with hmem | hmem
        · exact absurd hmem ho
        · exact hmem
      have hstep := scoreKeyStep_lookup_ne rs a o sk ho hmap
      have hmap' : (scoreKeyStep rs a o).1 = none → (scoreKeyStep rs a o).2.1 = none := by
        intro hn
        have hs := scoreKeyStep_fst_isSome rs a o
        rw [hn] at hs
        simp at hs
      have hsync' : (alistLookup (((scoreKeyStep rs a o).1).getD []) sk).isSome ↔
          (alistLookup (((scoreKeyStep rs a o).2.1).getD []) sk).isSome := by
        rw [hstep.1, hstep.2]
        exact hsync
      have := ih hmem' hnd.2 (scoreKeyStep rs a o) hmap' hsync'
      rw [hstep.1, hstep.2] at this
      exact this

theorem applyRuns_lookup (os : List EvalOutputScore) (sk : String)
    (hmem : sk ∈ os.map EvalOutputScore.json_key)
    (hnd : (os.map EvalOutputScore.json_key).Nodup)
    (counted : List EvalRun) :
    ∀ (ts : Option (List (String × ℚ))) (sc : Option (List (String × ℕ))),
      counted ≠ [] → (ts = none → sc = none) →
      ((alistLookup (ts.getD []) sk).isSome ↔
        (alistLookup (sc.getD []) sk).isSome) →
      alistLookup (((applyRuns os counted (ts, sc)).1).getD []) sk =
        some ((alistLookup (ts.getD []) sk).getD 0 + keySum sk counted) ∧
      alistLookup (((applyRuns os counted (ts, sc)).2).getD []) sk =
        some ((alistLookup (sc.getD []) sk).getD 0 + keyCount sk counted) := by
  induction counted with
  | nil => intro ts sc hne; exact absurd rfl hne
  | cons r rest ih =>
    intro ts sc _ hmap hsync
    have hf := foldScore_lookup_of_mem r.scores sk os hmem hnd (ts, sc, false) hmap hsync
    dsimp only at hf
    cases rest with
    | nil =>
      rw [show applyRuns os [r] (ts, sc) =
        ((os.foldl (scoreKeyStep r.scores) (ts, sc, false)).1,
         (os.foldl (scoreKeyStep r.scores) (ts, sc, false)).2.1) from rfl]
      rw [keySum_cons, keyCount_cons]
      refine ⟨hf.1.trans ?_, hf.2.trans ?_⟩
      · rw [keySum]
        simp
      · rw [keyCount]
        simp
    | cons r2 rest2 =>
      rw [show applyRuns os (r :: r2 :: rest2) (ts, sc) =
        applyRuns os (r2 :: rest2)
          ((os.foldl (scoreKeyStep r.scores) (ts, sc, false)).1,
           (os.foldl (scoreKeyStep r.scores) (ts, sc, false)).2.1) from rfl]
      have hmap' : (os.foldl (scoreKeyStep r.scores) (ts, sc, false)).1 = none →
          (os.foldl (scoreKeyStep r.scores) (ts, sc, false)).2.1 = none := by
        intro hn
        rw [hn] at hf
        simp [alistLookup] at hf
      have hsync' : (alistLookup
            (((os.foldl (scoreKeyStep r.scores) (ts, sc, false)).1).getD []) sk).isSome ↔
          (alistLookup
            (((os.foldl (scoreKeyStep r.scores) (ts, sc, false)).2.1).getD []) sk).isSome := by
        rw [hf.1, hf.2]
        simp
      have hrec := ih _ _ (by simp) hmap' hsync'
      rw [hf.1, hf.2] at hrec
      rw [keySum_cons, keyCount_cons]
      refine ⟨hrec.1.trans ?_, hrec.2.trans ?_⟩
      · rw [Option.getD_some]
        congr 1
        ring
      · rw [Option.getD_some]
        congr 1
        omega

theorem remAfter_eq_sdiff (rc : ℕ) (runs : List EvalRun) :
    ∀ rem, remAfter rc rem runs =
      rem \ ((runs.filter (fun r => r.task_run_config_id = some rc)).map
        EvalRun.dataset_id).toFinset := by
  induction runs with
  | nil => intro rem; simp [remAfter]
  | cons r rs ih =>
    intro rem
    by_cases hcfg : r.task_run_config_id = some rc
    · by_cases hmem : r.dataset_id ∈ rem
      · rw [show remAfter rc rem (r :: rs) = remAfter rc (rem.erase r.dataset_id) rs from by
          simp [remAfter, hcfg, hmem]]
        rw [ih]
        ext x
        simp [hcfg, Finset.mem_sdiff, Finset.mem_erase]
        tauto
      · rw [show remAfter rc rem (r :: rs) = remAfter rc rem rs from by
          simp [remAfter, hcfg, hmem]]
        rw [ih]
        have hcons : ((List.filter (fun r' => r'.task_run_config_id = some rc)
              (r :: rs)).map EvalRun.dataset_id).toFinset =
            insert r.dataset_id
              (((rs.filter (fun r' => r'.task_run_config_id = some rc)).map
                EvalRun.dataset_id).toFinset) := by
          simp [hcfg]
        rw [hcons, Finset.sdiff_insert, Finset.erase_eq_of_not_mem]
        simp [hmem]
    · rw [show remAfter rc rem (r :: rs) = remAfter rc rem rs from by
        simp [remAfter, hcfg]]
      rw [ih]
      simp [hcfg]

theorem countedFor_length_add_card (rc : ℕ) (runs : List EvalRun) :
    ∀ rem, (countedFor rc rem runs).length + (remAfter rc rem runs).card =
      rem.card := by
  induction runs with
  | nil => intro rem; simp [countedFor, remAfter]
  | cons r rs ih =>
    intro rem
    by_cases hit : r.task_run_config_id = some rc ∧ r.dataset_id ∈ rem
    · rw [show countedFor rc rem (r :: rs) =
          r :: countedFor rc (rem.erase r.dataset_id) rs from by
        simp [countedFor, hit.1, hit.2]]
      rw [show remAfter rc rem (r :: rs) =
          remAfter rc (rem.erase r.dataset_id) rs from by
        simp [remAfter, hit.1, hit.2]]
      have := ih (rem.erase r.dataset_id)
      have hcard := Finset.card_erase_of_mem hit.2
      have hpos : 0 < rem.card := Finset.card_pos.mpr ⟨r.dataset_id, hit.2⟩
      simp only [List.length_cons]
      omega
    · rw [show countedFor rc rem (r :: rs) = countedFor rc rem rs from by
        simp only [countedFor, if_neg hit]]
      rw [show remAfter rc rem (r :: rs) = remAfter rc rem rs from by
        simp only [remAfter, if_neg hit]]
      exact ih rem

theorem alistLookup_map_value {α β γ : Type} [DecidableEq α]
    (l : List (α × β)) (g : α → β → γ) (k : α) :
    alistLookup (l.map (fun p => (p.1, g p.1 p.2))) k =
      (alistLookup l k).map (g k) := by
  induction l with
  | nil => simp [alistLookup]
  | cons p rest ih =>
    obtain ⟨a, b⟩ := p
    by_cases h : k = a
    · subst h
      simp [alistLookup]
    · simp [alistLookup, h, ih]

theorem lookup_foldl_ite_insert_not_mem {α β γ : Type} [DecidableEq α]
    (C : α → Prop) [DecidablePred C] (F : α → β → γ) (m : List (α × β))
    (sk : α) (h : sk ∉ m.map Prod.fst) :
    ∀ a0, alistLookup
        (m.foldl (fun acc q =>
          if C q.1 then alistInsert acc q.1 (F q.1 q.2) else acc) a0) sk =
      alistLookup a0 sk := by
  induction m with
  | nil => intro a0; rfl
  | cons q m' ih =>
    intro a0
    simp only [List.map_cons, List.mem_cons] at h
    push_neg at h
    rw [List.foldl_cons, ih h.2]
    by_cases hc : C q.1
    · rw [if_pos hc, alistLookup_insert, if_neg h.1]
    · rw [if_neg hc]

theorem lookup_foldl_ite_insert {α β γ : Type} [DecidableEq α]
    (C : α → Prop) [DecidablePred C] (F : α → β → γ) (m : List (α × β))
    (hnd : (m.map Prod.fst).Nodup) (sk : α) :
    ∀ a0, alistLookup
        (m.foldl (fun acc q =>
          if C q.1 then alistInsert acc q.1 (F q.1 q.2) else acc) a0) sk =
      match alistLookup m sk with
      | some v => if C sk then some (F sk v) else alistLookup a0 sk
      | none => alistLookup a0 sk := by
  induction m with
  | nil => intro a0; rfl
  | cons q m' ih =>
    intro a0
    obtain ⟨a, b⟩ := q
    rw [List.map_cons, List.nodup_cons] at hnd
    by_cases hk : sk = a
    · subst hk
      rw [List.foldl_cons, lookup_foldl_ite_insert_not_mem C F m' sk hnd.1]
      simp only [alistLookup, if_pos rfl]
      by_cases hc : C sk
      · simp [hc, alistLookup_insert]
      · simp [hc]
    · rw [List.foldl_cons, ih hnd.2]
      simp only [alistLookup, if_neg hk]
      cases alistLookup m' sk with
      | some v =>
        by_cases hc : C sk
        · simp [hc]
        · simp only [hc, if_false]
          by_cases hca : C a
          · simp only [hca, if_true, alistLookup_insert, if_neg hk]
          · simp only [hca, if_false]
      | none =>
        simp only []
        by_cases hca : C a
        · simp only [hca, if_true, alistLookup_insert, if_neg hk]
        · simp only [hca, if_false]

theorem scoreKeyStep_keys_nodup (rs : List (String × ℚ))
    (a : Option (List (String × ℚ)) × Option (List (String × ℕ)) × Bool)
    (o : EvalOutputScore)
    (h1 : (((a.1).getD []).map Prod.fst).Nodup)
    (h2 : (((a.2.1).getD []).map Prod.fst).Nodup) :
    ((((scoreKeyStep rs a o).1).getD []).map Prod.fst).Nodup ∧
    ((((scoreKeyStep rs a o).2.1).getD []).map Prod.fst).Nodup := by
  rcases a with ⟨tso, sco, b⟩
  cases hts : tso with
  | none =>
    cases hl : alistLookup rs o.json_key <;>
      simp only [scoreKeyStep, hts, hl] <;>
      constructor <;>
      simp [alistInsert_keys_nodup, alistLookup]
  | some m =>
    rw [hts] at h1
    cases hm : alistLookup m o.json_key with
    | none =>
      cases hl : alistLookup rs o.json_key <;>
        simp only [scoreKeyStep, hts, hm, hl] <;>
        constructor <;>
        simp_all [alistInsert_keys_nodup]
    | some w =>
      cases hl : alistLookup rs o.json_key <;>
        simp only [scoreKeyStep, hts, hm, hl] <;>
        constructor <;>
        simp_all [alistInsert_keys_nodup]

theorem foldScore_keys_nodup (rs : List (String × ℚ)) (l : List EvalOutputScore) :
    ∀ a, (((a.1).getD []).map Prod.fst).Nodup →
      (((a.2.1).getD []).map Prod.fst).Nodup →
      ((((l.foldl (scoreKeyStep rs) a).1).getD []).map Prod.fst).Nodup ∧
      ((((l.foldl (scoreKeyStep rs) a).2.1).getD []).map Prod.fst).Nodup := by
  induction l with
  | nil => intro a h1 h2; exact ⟨h1, h2⟩
  | cons o os ih =>
    intro a h1 h2
    have := scoreKeyStep_keys_nodup rs a o h1 h2
    exact ih (scoreKeyStep rs a o) this.1 this.2

theorem applyRuns_keys_nodup (os : List EvalOutputScore) (counted : List EvalRun) :
    ∀ a : Option (List (String × ℚ)) × Option (List (String × ℕ)),
      (((a.1).getD []).map Prod.fst).Nodup →
      (((a.2).getD []).map Prod.fst).Nodup →
      ((((applyRuns os counted a).1).getD []).map Prod.fst).Nodup ∧
      ((((applyRuns os counted a).2).getD []).map Prod.fst).Nodup := by
  induction counted with
  | nil => intro a h1 h2; exact ⟨h1, h2⟩
  | cons r rest ih =>
    intro a h1 h2
    have hstep := foldScore_keys_nodup r.scores os (a.1, a.2, false) h1 h2
    exact ih _ hstep.1 hstep.2

theorem aggView_init_of_mem (task_runs_configs : List TaskRunConfig)
    (E : Finset ℕ) (rc : ℕ) (h : rc ∈ task_runs_configs.map TaskRunConfig.id) :
    aggView (initAggState task_runs_configs E) rc = ⟨some E, 0, none, none⟩ := by
  unfold aggView initAggState
  refine RCView.ext ?_ ?_ rfl rfl
  · exact lookup_foldl_insert_of_mem TaskRunConfig.id (fun _ => E) _ _ _ h
  · rw [lookup_foldl_insert_of_mem TaskRunConfig.id (fun _ => 0) _ _ _ h]
    rfl

theorem aggView_init_of_not_mem (task_runs_configs : List TaskRunConfig)
    (E : Finset ℕ) (rc : ℕ) (h : rc ∉ task_runs_configs.map TaskRunConfig.id) :
    aggView (initAggState task_runs_configs E) rc = ⟨none, 0, none, none⟩ := by
  unfold aggView initAggState
  refine RCView.ext ?_ ?_ rfl rfl
  · rw [lookup_foldl_insert_of_not_mem TaskRunConfig.id (fun _ => E) _ _ _ h]
    rfl
  · rw [lookup_foldl_insert_of_not_mem TaskRunConfig.id (fun _ => 0) _ _ _ h]
    rfl

theorem aggView_final (taskRuns : List TaskRun) (eval_set_filter : TaskRun → Bool)
    (task_runs_configs : List TaskRunConfig) (output_scores : List EvalOutputScore)
    (eval_runs : List EvalRun) (rc_id : ℕ)
    (hrc : rc_id ∈ task_runs_configs.map TaskRunConfig.id) :
    aggView (eval_runs.foldl (processEvalRun output_scores)
        (initAggState task_runs_configs (dataset_ids_in_filter taskRuns eval_set_filter))) rc_id =
      ⟨some (remAfter rc_id (dataset_ids_in_filter taskRuns eval_set_filter) eval_runs),
       (countedFor rc_id (dataset_ids_in_filter taskRuns eval_set_filter) eval_runs).countP
         (runIncomplete output_scores),
       (applyRuns output_scores
         (countedFor rc_id (dataset_ids_in_filter taskRuns eval_set_filter) eval_runs)
         (none, none)).1,
       (applyRuns output_scores
         (countedFor rc_id (dataset_ids_in_filter taskRuns eval_set_filter) eval_runs)
         (none, none)).2⟩ := by
  rw [aggView_foldl, aggView_init_of_mem _ _ _ hrc, rcStep_foldl_char]
  simp

theorem summaryResults_lookup (ts : List (ℕ × List (String × ℚ)))
    (sc : List (ℕ × List (String × ℕ))) (rc : ℕ) :
    alistLookup (summaryResults ts sc) rc = (alistLookup ts rc).map (fun m =>
      m.foldl (fun acc q =>
        if 0 < (alistLookup ((alistLookup sc rc).getD []) q.1).getD 0 then
          alistInsert acc q.1 (ScoreSummary.mk
            (q.2 / (((alistLookup ((alistLookup sc rc).getD []) q.1).getD 0 : ℕ) : ℚ)))
        else acc) []) := by
  unfold summaryResults
  exact alistLookup_map_value ts (fun k v =>
    v.foldl (fun acc q =>
      if 0 < (alistLookup ((alistLookup sc k).getD []) q.1).getD 0 then
        alistInsert acc q.1 (ScoreSummary.mk
          (q.2 / (((alistLookup ((alistLookup sc k).getD []) q.1).getD 0 : ℕ) : ℚ)))
      else acc) []) rc

theorem alistLookup_nil {α β : Type} [DecidableEq α] (k : α) :
    alistLookup ([] : List (α × β)) k = none := rfl

theorem get_eval_config_score_summary_ok_shape (taskRuns : List TaskRun)
    (eval_set_filter : TaskRun → Bool) (task_runs_configs : List TaskRunConfig)
    (output_scores : List EvalOutputScore) (eval_runs : List EvalRun)
    (hcard : ¬ (dataset_ids_in_filter taskRuns eval_set_filter).card = 0) :
    get_eval_config_score_summary taskRuns eval_set_filter task_runs_configs
        output_scores eval_runs =
      .ok ⟨summaryResults
            (eval_runs.foldl (processEvalRun output_scores)
              (initAggState task_runs_configs
                (dataset_ids_in_filter taskRuns eval_set_filter))).total_scores
            (eval_runs.foldl (processEvalRun output_scores)
              (initAggState task_runs_configs
                (dataset_ids_in_filter taskRuns eval_set_filter))).score_counts,
          percentCompleteMap task_runs_configs
            (eval_runs.foldl (processEvalRun output_scores)
              (initAggState task_runs_configs
                (dataset_ids_in_filter taskRuns eval_set_filter)))
            (dataset_ids_in_filter taskRuns eval_set_filter).card,
          (dataset_ids_in_filter taskRuns eval_set_filter).card⟩ := by
  unfold get_eval_config_score_summary
  rw [if_neg hcard]

/-- C2: mean computation and omission. For a run-configuration of the task
and a declared score key (distinct declared keys), in the summary produced by
`get_eval_config_score_summary`: when at least one counted run reports the
key, the reported `mean_score` is the sum of the key's reported values over
counted runs divided by the number of counted runs reporting it; when no
counted run reports the key it is absent from the run-configuration's results
mapping (never 0 or null); and a counted run missing a declared key is
tallied in the incomplete counter (its present keys still being part of the
sums, which range over all counted runs). `countedFor` is the first-seen-wins
counted subsequence. -/
theorem mean_computation_and_omission (taskRuns : List TaskRun)
    (eval_set_filter : TaskRun → Bool) (task_runs_configs : List TaskRunConfig)
    (output_scores : List EvalOutputScore) (eval_runs : List EvalRun)
    (rc_id : ℕ) (sk : String) (t : ℕ)
    (hrc : rc_id ∈ task_runs_configs.map TaskRunConfig.id)
    (hsk : EvalOutputScore.mk sk t ∈ output_scores)
    (hnd : (output_scores.map EvalOutputScore.json_key).Nodup)
    (s : EvalResultSummary)
    (hs : get_eval_config_score_summary taskRuns eval_set_filter task_runs_configs
      output_scores eval_runs = .ok s) :
    (0 < keyCount sk (countedFor rc_id
        (dataset_ids_in_filter taskRuns eval_set_filter) eval_runs) →
      ∃ m, alistLookup s.results rc_id = some m ∧
        alistLookup m sk = some ⟨keySum sk (countedFor rc_id
            (dataset_ids_in_filter taskRuns eval_set_filter) eval_runs) /
          ((keyCount sk (countedFor rc_id
            (dataset_ids_in_filter taskRuns eval_set_filter) eval_runs) : ℕ) : ℚ)⟩) ∧
    (keyCount sk (countedFor rc_id
        (dataset_ids_in_filter taskRuns eval_set_filter) eval_runs) = 0 →
      alistLookup s.results rc_id = none ∨
      ∃ m, alistLookup s.results rc_id = some m ∧ alistLookup m sk = none) ∧
    ((alistLookup (eval_runs.foldl (processEvalRun output_scores)
        (initAggState task_runs_configs
          (dataset_ids_in_filter taskRuns eval_set_filter))).incomplete_counts
        rc_id).getD 0 =
      (countedFor rc_id (dataset_ids_in_filter taskRuns eval_set_filter)
        eval_runs).countP (runIncomplete output_scores)) := by
  have hmem : sk ∈ output_scores.map EvalOutputScore.json_key :=
    List.mem_map.mpr ⟨⟨sk, t⟩, hsk, rfl⟩
  by_cases hcard : (dataset_ids_in_filter taskRuns eval_set_filter).card = 0
  · rw [show get_eval_config_score_summary taskRuns eval_set_filter task_runs_configs
        output_scores eval_runs = .error .emptyDataset from by
      unfold get_eval_config_score_summary
      rw [if_pos hcard]] at hs
    exact absurd hs (by simp)
  · rw [get_eval_config_score_summary_ok_shape taskRuns eval_set_filter
      task_runs_configs output_scores eval_runs hcard] at hs
    obtain rfl := (Except.ok.inj hs).symm
    dsimp only
    have hview := aggView_final taskRuns eval_set_filter task_runs_configs
      output_scores eval_runs rc_id hrc
    have hts := congrArg RCView.ts hview
    have hscv := congrArg RCView.sc hview
    have hpinc := congrArg RCView.pinc hview
    simp only [aggView] at hts hscv hpinc
    refine ⟨?_, ?_, by simpa using hpinc⟩
    · intro hpos
      have hC : countedFor rc_id (dataset_ids_in_filter taskRuns eval_set_filter)
          eval_runs ≠ [] := by
        intro hnil
        rw [hnil] at hpos
        simp [keyCount] at hpos
      have happ := applyRuns_lookup output_scores sk hmem hnd
        (countedFor rc_id (dataset_ids_in_filter taskRuns eval_set_filter) eval_runs)
        none none hC (fun _ => rfl) (by simp [alistLookup])
      obtain ⟨m, hm⟩ : ∃ m, (applyRuns output_scores
          (countedFor rc_id (dataset_ids_in_filter taskRuns eval_set_filter) eval_runs)
          (none, none)).1 = some m := by
        cases hap : (applyRuns output_scores
            (countedFor rc_id (dataset_ids_in_filter taskRuns eval_set_filter) eval_runs)
            (none, none)).1 with
        | some m => exact ⟨m, rfl⟩
        | none => rw [hap] at happ; simp [alistLookup] at happ
      obtain ⟨n, hn⟩ : ∃ n, (applyRuns output_scores
          (countedFor rc_id (dataset_ids_in_filter taskRuns eval_set_filter) eval_runs)
          (none, none)).2 = some n := by
        cases hap : (applyRuns output_scores
            (countedFor rc_id (dataset_ids_in_filter taskRuns eval_set_filter) eval_runs)
            (none, none)).2 with
        | some n => exact ⟨n, rfl⟩
        | none => rw [hap] at happ; simp [alistLookup] at happ
      rw [hm] at happ hts
      rw [hn] at happ hscv
      simp only [Option.getD_some, alistLookup_nil, Option.getD_none, zero_add] at happ
      have hmnodup : (m.map Prod.fst).Nodup := by
        have hknd := applyRuns_keys_nodup output_scores
          (countedFor rc_id (dataset_ids_in_filter taskRuns eval_set_filter) eval_runs)
          (none, none) (by simp) (by simp)
        rw [hm] at hknd
        simpa using hknd.1
      have hres : alistLookup (summaryResults
          (eval_runs.foldl (processEvalRun output_scores)
            (initAggState task_runs_configs
              (dataset_ids_in_filter taskRuns eval_set_filter))).total_scores
          (eval_runs.foldl (processEvalRun output_scores)
            (initAggState task_runs_configs
              (dataset_ids_in_filter taskRuns eval_set_filter))).score_counts) rc_id =
          some (m.foldl (fun acc q =>
            if 0 < (alistLookup ((alistLookup
                (eval_runs.foldl (processEvalRun output_scores)
                  (initAggState task_runs_configs
                    (dataset_ids_in_filter taskRuns eval_set_filter))).score_counts
                rc_id).getD []) q.1).getD 0 then
              alistInsert acc q.1 (ScoreSummary.mk
                (q.2 / (((alistLookup ((alistLookup
                  (eval_runs.foldl (processEvalRun output_scores)
                    (initAggState task_runs_configs
                      (dataset_ids_in_filter taskRuns eval_set_filter))).score_counts
                  rc_id).getD []) q.1).getD 0 : ℕ) : ℚ)))
            else acc) []) := by
        rw [summaryResults_lookup, hts]
        rfl
      refine ⟨_, hres, ?_⟩
      rw [lookup_foldl_ite_insert
        (fun k : String => 0 < (alistLookup ((alistLookup
          (eval_runs.foldl (processEvalRun output_scores)
            (initAggState task_runs_configs
              (dataset_ids_in_filter taskRuns eval_set_filter))).score_counts
          rc_id).getD []) k).getD 0)
        (fun (k : String) (v : ℚ) => ScoreSummary.mk
          (v / (((alistLookup ((alistLookup
            (eval_runs.foldl (processEvalRun output_scores)
              (initAggState task_runs_configs
                (dataset_ids_in_filter taskRuns eval_set_filter))).score_counts
            rc_id).getD []) k).getD 0 : ℕ) : ℚ)))
        m hmnodup sk]
      rw [happ.1, hscv]
      simp only [Option.getD_some]
      rw [happ.2]
      simp only [Option.getD_some]
      rw [if_pos (by simpa using hpos)]
    · intro hzero
      by_cases hC : countedFor rc_id (dataset_ids_in_filter taskRuns eval_set_filter)
          eval_runs = []
      · left
        have hnone : (applyRuns output_scores
            (countedFor rc_id (dataset_ids_in_filter taskRuns eval_set_filter) eval_runs)
            (none, none)).1 = none := by
          rw [hC]
          rfl
        rw [summaryResults_lookup, hts, hnone]
        rfl
      · right
        have happ := applyRuns_lookup output_scores sk hmem hnd
          (countedFor rc_id (dataset_ids_in_filter taskRuns eval_set_filter) eval_runs)
          none none hC (fun _ => rfl) (by simp [alistLookup])
        obtain ⟨m, hm⟩ : ∃ m, (applyRuns output_scores
            (countedFor rc_id (dataset_ids_in_filter taskRuns eval_set_filter) eval_runs)
            (none, none)).1 = some m := by
          cases hap : (applyRuns output_scores
              (countedFor rc_id (dataset_ids_in_filter taskRuns eval_set_filter) eval_runs)
              (none, none)).1 with
          | some m => exact ⟨m, rfl⟩
          | none => rw [hap] at happ; simp [alistLookup] at happ
        obtain ⟨n, hn⟩ : ∃ n, (applyRuns output_scores
            (countedFor rc_id (dataset_ids_in_filter taskRuns eval_set_filter) eval_runs)
            (none, none)).2 = some n := by
          cases hap : (applyRuns output_scores
              (countedFor rc_id (dataset_ids_in_filter taskRuns eval_set_filter) eval_runs)
              (none, none)).2 with
          | some n => exact ⟨n, rfl⟩
          | none => rw [hap] at happ; simp [alistLookup] at happ
        rw [hm] at happ hts
        rw [hn] at happ hscv
        simp only [Option.getD_some, alistLookup_nil, Option.getD_none, zero_add] at happ
        have hmnodup : (m.map Prod.fst).Nodup := by
          have hknd := applyRuns_keys_nodup output_scores
            (countedFor rc_id (dataset_ids_in_filter taskRuns eval_set_filter) eval_runs)
            (none, none) (by simp) (by simp)
          rw [hm] at hknd
          simpa using hknd.1
        have hres : alistLookup (summaryResults
            (eval_runs.foldl (processEvalRun output_scores)
              (initAggState task_runs_configs
                (dataset_ids_in_filter taskRuns eval_set_filter))).total_scores
            (eval_runs.foldl (processEvalRun output_scores)
              (initAggState task_runs_configs
                (dataset_ids_in_filter taskRuns eval_set_filter))).score_counts) rc_id =
            some (m.foldl (fun acc q =>
              if 0 < (alistLookup ((alistLookup
                  (eval_runs.foldl (processEvalRun output_scores)
                    (initAggState task_runs_configs
                      (dataset_ids_in_filter taskRuns eval_set_filter))).score_counts
                  rc_id).getD []) q.1).getD 0 then
                alistInsert acc q.1 (ScoreSummary.mk
                  (q.2 / (((alistLookup ((alistLookup
                    (eval_runs.foldl (processEvalRun output_scores)
                      (initAggState task_runs_configs
                        (dataset_ids_in_filter taskRuns eval_set_filter))).score_counts
                    rc_id).getD []) q.1).getD 0 : ℕ) : ℚ)))
              else acc) []) := by
          rw [summaryResults_lookup, hts]
          rfl
        refine ⟨_, hres, ?_⟩
        rw [lookup_foldl_ite_insert
          (fun k : String => 0 < (alistLookup ((alistLookup
            (eval_runs.foldl (processEvalRun output_scores)
              (initAggState task_runs_configs
                (dataset_ids_in_filter taskRuns eval_set_filter))).score_counts
            rc_id).getD []) k).getD 0)
          (fun (k : String) (v : ℚ) => ScoreSummary.mk
            (v / (((alistLookup ((alistLookup
              (eval_runs.foldl (processEvalRun output_scores)
                (initAggState task_runs_configs
                  (dataset_ids_in_filter taskRuns eval_set_filter))).score_counts
              rc_id).getD []) k).getD 0 : ℕ) : ℚ)))
          m hmnodup sk]
        rw [happ.1, hscv]
        simp only [Option.getD_some]
        rw [happ.2]
        simp only [Option.getD_some]
        rw [if_neg (by simp [hzero])]
        rfl

theorem percentCompleteMap_lookup_of_mem (task_runs_configs : List TaskRunConfig)
    (st : AggState) (dataset_size : ℕ) (rc_id : ℕ)
    (h : rc_id ∈ task_runs_configs.map TaskRunConfig.id) :
    alistLookup (percentCompleteMap task_runs_configs st dataset_size) rc_id =
      some (1 - (((alistLookup st.incomplete_counts rc_id).getD 0 +
        ((alistLookup st.remaining_expected_dataset_ids rc_id).getD ∅).card : ℕ) : ℚ) /
        (dataset_size : ℚ)) := by
  unfold percentCompleteMap
  exact lookup_foldl_insert_of_mem TaskRunConfig.id
    (fun k => 1 - (((alistLookup st.incomplete_counts k).getD 0 +
      ((alistLookup st.remaining_expected_dataset_ids k).getD ∅).card : ℕ) : ℚ) /
      (dataset_size : ℚ)) task_runs_configs [] rc_id h

/-- C3: closed accounting. After processing any stream,
`incomplete_count + |remaining| ≤ dataset_size`; the reported completion
fraction equals `1 − (incomplete_count + missing_count) / dataset_size`,
where `missing_count` counts the expected dataset ids never seen in a run of
that run-configuration; and every reported fraction lies in [0, 1]. -/
theorem closed_accounting (taskRuns : List TaskRun)
    (eval_set_filter : TaskRun → Bool) (task_runs_configs : List TaskRunConfig)
    (output_scores : List EvalOutputScore) (eval_runs : List EvalRun)
    (rc_id : ℕ) (hrc : rc_id ∈ task_runs_configs.map TaskRunConfig.id)
    (s : EvalResultSummary)
    (hs : get_eval_config_score_summary taskRuns eval_set_filter task_runs_configs
      output_scores eval_runs = .ok s) :
    ((alistLookup (eval_runs.foldl (processEvalRun output_scores)
        (initAggState task_runs_configs
          (dataset_ids_in_filter taskRuns eval_set_filter))).incomplete_counts
        rc_id).getD 0 +
      ((alistLookup (eval_runs.foldl (processEvalRun output_scores)
        (initAggState task_runs_configs
          (dataset_ids_in_filter taskRuns eval_set_filter))).remaining_expected_dataset_ids
        rc_id).getD ∅).card ≤
      (dataset_ids_in_filter taskRuns eval_set_filter).card) ∧
    (alistLookup s.run_config_percent_complete rc_id =
      some (1 - (((alistLookup (eval_runs.foldl (processEvalRun output_scores)
          (initAggState task_runs_configs
            (dataset_ids_in_filter taskRuns eval_set_filter))).incomplete_counts
          rc_id).getD 0 +
        ((dataset_ids_in_filter taskRuns eval_set_filter) \
          ((eval_runs.filter (fun r => r.task_run_config_id = some rc_id)).map
            EvalRun.dataset_id).toFinset).card : ℕ) : ℚ) /
        ((dataset_ids_in_filter taskRuns eval_set_filter).card : ℚ))) ∧
    (∀ q, alistLookup s.run_config_percent_complete rc_id = some q →
      0 ≤ q ∧ q ≤ 1) := by
  by_cases hcard : (dataset_ids_in_filter taskRuns eval_set_filter).card = 0
  · rw [show get_eval_config_score_summary taskRuns eval_set_filter task_runs_configs
        output_scores eval_runs = .error .emptyDataset from by
      unfold get_eval_config_score_summary
      rw [if_pos hcard]] at hs
    exact absurd hs (by simp)
  · rw [get_eval_config_score_summary_ok_shape taskRuns eval_set_filter
      task_runs_configs output_scores eval_runs hcard] at hs
    obtain rfl := (Except.ok.inj hs).symm
    dsimp only
    have hview := aggView_final taskRuns eval_set_filter task_runs_configs
      output_scores eval_runs rc_id hrc
    have hrem := congrArg RCView.rem hview
    have hpinc := congrArg RCView.pinc hview
    simp only [aggView] at hrem hpinc
    have hlen := countedFor_length_add_card rc_id eval_runs
      (dataset_ids_in_filter taskRuns eval_set_filter)
    have hcp := List.countP_le_length (p := runIncomplete output_scores)
      (l := countedFor rc_id (dataset_ids_in_filter taskRuns eval_set_filter) eval_runs)
    have hbound : (alistLookup (eval_runs.foldl (processEvalRun output_scores)
        (initAggState task_runs_configs
          (dataset_ids_in_filter taskRuns eval_set_filter))).incomplete_counts
        rc_id).getD 0 +
      ((alistLookup (eval_runs.foldl (processEvalRun output_scores)
        (initAggState task_runs_configs
          (dataset_ids_in_filter taskRuns eval_set_filter))).remaining_expected_dataset_ids
        rc_id).getD ∅).card ≤
      (dataset_ids_in_filter taskRuns eval_set_filter).card := by
      rw [hpinc, hrem]
      simp only [Option.getD_some]
      omega
    have hpercent := percentCompleteMap_lookup_of_mem task_runs_configs
      (eval_runs.foldl (processEvalRun output_scores)
        (initAggState task_runs_configs
          (dataset_ids_in_filter taskRuns eval_set_filter)))
      (dataset_ids_in_filter taskRuns eval_set_filter).card rc_id hrc
    refine ⟨hbound, ?_, ?_⟩
    · rw [hpercent]
      congr 2
      rw [hrem]
      simp only [Option.getD_some]
      rw [remAfter_eq_sdiff]
    · intro q hq
      rw [hpercent] at hq
      have hq' := Option.some.inj hq
      subst hq'
      have hszpos : 0 < ((dataset_ids_in_filter taskRuns eval_set_filter).card : ℚ) := by
        have : 0 < (dataset_ids_in_filter taskRuns eval_set_filter).card :=
          Nat.pos_of_ne_zero hcard
        exact_mod_cast this
      have hfrac0 : (0 : ℚ) ≤
          (((alistLookup (eval_runs.foldl (processEvalRun output_scores)
              (initAggState task_runs_configs
                (dataset_ids_in_filter taskRuns eval_set_filter))).incomplete_counts
              rc_id).getD 0 +
            ((alistLookup (eval_runs.foldl (processEvalRun output_scores)
              (initAggState task_runs_configs
                (dataset_ids_in_filter taskRuns eval_set_filter))).remaining_expected_dataset_ids
              rc_id).getD ∅).card : ℕ) : ℚ) /
            ((dataset_ids_in_filter taskRuns eval_set_filter).card : ℚ) := by
        positivity
      have hfrac1 : (((alistLookup (eval_runs.foldl (processEvalRun output_scores)
              (initAggState task_runs_configs
                (dataset_ids_in_filter taskRuns eval_set_filter))).incomplete_counts
              rc_id).getD 0 +
            ((alistLookup (eval_runs.foldl (processEvalRun output_scores)
              (initAggState task_runs_configs
                (dataset_ids_in_filter taskRuns eval_set_filter))).remaining_expected_dataset_ids
              rc_id).getD ∅).card : ℕ) : ℚ) /
            ((dataset_ids_in_filter taskRuns eval_set_filter).card : ℚ) ≤ 1 := by
        rw [div_le_one hszpos]
        exact_mod_cast hbound
      constructor
      · linarith
      · linarith

theorem processEvalRun_remaining_none (os : List EvalOutputScore) (st : AggState)
    (r : EvalRun) (rc : ℕ)
    (h : alistLookup st.remaining_expected_dataset_ids rc = none) :
    alistLookup (processEvalRun os st r).remaining_expected_dataset_ids rc = none := by
  cases hcfg : r.task_run_config_id with
  | none => simp [processEvalRun, hcfg, h]
  | some rcid =>
    cases hrem : alistLookup st.remaining_expected_dataset_ids rcid with
    | none => simp [processEvalRun, hcfg, hrem, h]
    | some rem =>
      by_cases hmem : r.dataset_id ∈ rem
      · have hne : ¬ rc = rcid := by
          intro he
          rw [he, hrem] at h
          exact Option.noConfusion h
        simp [processEvalRun, hcfg, hrem, hmem, alistLookup_insert, hne, h]
      · simp [processEvalRun, hcfg, hrem, hmem, h]

theorem foldl_processEvalRun_remaining_none (os : List EvalOutputScore)
    (runs : List EvalRun) :
    ∀ st rc, alistLookup st.remaining_expected_dataset_ids rc = none →
      alistLookup (runs.foldl (processEvalRun os) st).remaining_expected_dataset_ids
        rc = none := by
  induction runs with
  | nil => intro st rc h; exact h
  | cons r rs ih =>
    intro st rc h
    exact ih _ rc (processEvalRun_remaining_none os st r rc h)

theorem processEvalRun_remaining_subset (os : List EvalOutputScore) (st : AggState)
    (r : EvalRun) (E : Finset ℕ)
    (h : ∀ rc rem, alistLookup st.remaining_expected_dataset_ids rc = some rem →
      rem ⊆ E) :
    ∀ rc rem, alistLookup
        (processEvalRun os st r).remaining_expected_dataset_ids rc = some rem →
      rem ⊆ E := by
  intro rc rem hlook
  cases hcfg : r.task_run_config_id with
  | none => exact h rc rem (by rw [← hlook]; simp [processEvalRun, hcfg])
  | some rcid =>
    cases hrem : alistLookup st.remaining_expected_dataset_ids rcid with
    | none => exact h rc rem (by rw [← hlook]; simp [processEvalRun, hcfg, hrem])
    | some rem0 =>
      by_cases hmem : r.dataset_id ∈ rem0
      · rw [show (processEvalRun os st r).remaining_expected_dataset_ids =
            alistInsert st.remaining_expected_dataset_ids rcid
              (rem0.erase r.dataset_id) from by
          simp [processEvalRun, hcfg, hrem, hmem]] at hlook
        rw [alistLookup_insert] at hlook
        by_cases hrc : rc = rcid
        · rw [if_pos hrc] at hlook
          have := Option.some.inj hlook
          subst this
          exact Finset.Subset.trans (Finset.erase_subset _ _) (h rcid rem0 hrem)
        · rw [if_neg hrc] at hlook
          exact h rc rem hlook
      · exact h rc rem (by rw [← hlook]; simp [processEvalRun, hcfg, hrem, hmem])

theorem foldl_processEvalRun_remaining_subset (os : List EvalOutputScore)
    (runs : List EvalRun) (E : Finset ℕ) :
    ∀ st, (∀ rc rem,
        alistLookup st.remaining_expected_dataset_ids rc = some rem → rem ⊆ E) →
      ∀ rc rem, alistLookup
          (runs.foldl (processEvalRun os) st).remaining_expected_dataset_ids rc =
        some rem → rem ⊆ E := by
  induction runs with
  | nil => intro st h; exact h
  | cons r rs ih =>
    intro st h
    exact ih _ (processEvalRun_remaining_subset os st r E h)

theorem initAggState_remaining_subset (task_runs_configs : List TaskRunConfig)
    (E : Finset ℕ) :
    ∀ rc rem, alistLookup
        (initAggState task_runs_configs E).remaining_expected_dataset_ids rc =
      some rem → rem ⊆ E := by
  intro rc rem h
  by_cases hm : rc ∈ task_runs_configs.map TaskRunConfig.id
  · rw [show (initAggState task_runs_configs E).remaining_expected_dataset_ids =
        task_runs_configs.foldl (fun m rc => alistInsert m rc.id E) [] from rfl,
      lookup_foldl_insert_of_mem TaskRunConfig.id (fun _ => E) _ _ _ hm] at h
    have := Option.some.inj h
    subst this
    exact Finset.Subset.refl E
  · rw [show (initAggState task_runs_configs E).remaining_expected_dataset_ids =
        task_runs_configs.foldl (fun m rc => alistInsert m rc.id E) [] from rfl,
      lookup_foldl_insert_of_not_mem TaskRunConfig.id (fun _ => E) _ _ _ hm] at h
    exact Option.noConfusion h

theorem processEvalRun_skip (os : List EvalOutputScore) (st : AggState)
    (r : EvalRun) (rc : ℕ) (hcfg : r.task_run_config_id = some rc)
    (h : ∀ rem, alistLookup st.remaining_expected_dataset_ids rc = some rem →
      r.dataset_id ∉ rem) :
    processEvalRun os st r = st := by
  cases hrem : alistLookup st.remaining_expected_dataset_ids rc with
  | none => simp [processEvalRun, hcfg, hrem]
  | some rem => simp [processEvalRun, hcfg, hrem, h rem hrem]

theorem processEvalRun_not_mem_after (os : List EvalOutputScore) (st : AggState)
    (r : EvalRun) (rc : ℕ) (hcfg : r.task_run_config_id = some rc) :
    ∀ rem, alistLookup
        (processEvalRun os st r).remaining_expected_dataset_ids rc = some rem →
      r.dataset_id ∉ rem := by
  intro rem hlook
  cases hrem : alistLookup st.remaining_expected_dataset_ids rc with
  | none =>
    rw [show processEvalRun os st r = st from by
      simp [processEvalRun, hcfg, hrem]] at hlook
    rw [hlook] at hrem
    exact Option.noConfusion hrem
  | some rem0 =>
    by_cases hmem : r.dataset_id ∈ rem0
    · rw [show (processEvalRun os st r).remaining_expected_dataset_ids =
          alistInsert st.remaining_expected_dataset_ids rc
            (rem0.erase r.dataset_id) from by
        simp [processEvalRun, hcfg, hrem, hmem]] at hlook
      rw [alistLookup_insert, if_pos rfl] at hlook
      have := Option.some.inj hlook
      subst this
      exact Finset.not_mem_erase _ _
    · rw [show processEvalRun os st r = st from by
        simp [processEvalRun, hcfg, hrem, hmem]] at hlook
      rw [hlook] at hrem
      have := Option.some.inj hrem
      subst this
      exact hmem

theorem processEvalRun_not_mem_preserved (os : List EvalOutputScore) (st : AggState)
    (r : EvalRun) (rc : ℕ) (d : ℕ)
    (h : ∀ rem, alistLookup st.remaining_expected_dataset_ids rc = some rem →
      d ∉ rem) :
    ∀ rem, alistLookup
        (processEvalRun os st r).remaining_expected_dataset_ids rc = some rem →
      d ∉ rem := by
  intro rem hlook
  cases hcfg : r.task_run_config_id with
  | none => exact h rem (by rw [← hlook]; simp [processEvalRun, hcfg])
  | some rcid =>
    cases hrem : alistLookup st.remaining_expected_dataset_ids rcid with
    | none => exact h rem (by rw [← hlook]; simp [processEvalRun, hcfg, hrem])
    | some rem0 =>
      by_cases hmem : r.dataset_id ∈ rem0
      · rw [show (processEvalRun os st r).remaining_expected_dataset_ids =
            alistInsert st.remaining_expected_dataset_ids rcid
              (rem0.erase r.dataset_id) from by
          simp [processEvalRun, hcfg, hrem, hmem]] at hlook
        rw [alistLookup_insert] at hlook
        by_cases hrc : rc = rcid
        · rw [if_pos hrc] at hlook
          have := Option.some.inj hlook
          subst this
          intro hin
          exact h rem0 (hrc ▸ hrem) (Finset.mem_of_mem_erase hin)
        · rw [if_neg hrc] at hlook
          exact h rem hlook
      · exact h rem (by rw [← hlook]; simp [processEvalRun, hcfg, hrem, hmem])

theorem foldl_processEvalRun_not_mem_preserved (os : List EvalOutputScore)
    (runs : List EvalRun) (rc : ℕ) (d : ℕ) :
    ∀ st, (∀ rem,
        alistLookup st.remaining_expected_dataset_ids rc = some rem → d ∉ rem) →
      ∀ rem, alistLookup
          (runs.foldl (processEvalRun os) st).remaining_expected_dataset_ids rc =
        some rem → d ∉ rem := by
  induction runs with
  | nil => intro st h; exact h
  | cons r rs ih =>
    intro st h
    exact ih _ (processEvalRun_not_mem_preserved os st r rc d h)

/-- C8: exclusion rules. An evaluation run whose `task_run_config_id` is
unset, or names a run-configuration that is not one of the task's current
run-configurations, or whose dataset id is outside the expected set resolved
from the eval-set filter, contributes nothing: deleting it from the stream
leaves `get_eval_config_score_summary`'s result (all means, counts and
percent-complete values) unchanged. -/
theorem exclusion_rules (taskRuns : List TaskRun)
    (eval_set_filter : TaskRun → Bool) (task_runs_configs : List TaskRunConfig)
    (output_scores : List EvalOutputScore) (pre post : List EvalRun) (r : EvalRun)
    (hex : r.task_run_config_id = none ∨
      (∃ rc, r.task_run_config_id = some rc ∧
        rc ∉ task_runs_configs.map TaskRunConfig.id) ∨
      r.dataset_id ∉ dataset_ids_in_filter taskRuns eval_set_filter) :
    get_eval_config_score_summary taskRuns eval_set_filter task_runs_configs
        output_scores (pre ++ r :: post) =
      get_eval_config_score_summary taskRuns eval_set_filter task_runs_configs
        output_scores (pre ++ post) := by
  by_cases hcard : (dataset_ids_in_filter taskRuns eval_set_filter).card = 0
  · unfold get_eval_config_score_summary
    simp [hcard]
  · rw [get_eval_config_score_summary_ok_shape taskRuns eval_set_filter
      task_runs_configs output_scores (pre ++ r :: post) hcard,
      get_eval_config_score_summary_ok_shape taskRuns eval_set_filter
      task_runs_configs output_scores (pre ++ post) hcard]
    have hskip : processEvalRun output_scores
        (pre.foldl (processEvalRun output_scores)
          (initAggState task_runs_configs
            (dataset_ids_in_filter taskRuns eval_set_filter))) r =
        pre.foldl (processEvalRun output_scores)
          (initAggState task_runs_configs
            (dataset_ids_in_filter taskRuns eval_set_filter)) := by
      rcases hex with hnone | ⟨rc, hcfg, hinv⟩ | hdna
      · simp [processEvalRun, hnone]
      · apply processEvalRun_skip output_scores _ r rc hcfg
        intro rem hl
        have hninit : alistLookup (initAggState task_runs_configs
            (dataset_ids_in_filter taskRuns eval_set_filter)).remaining_expected_dataset_ids
            rc = none := by
          rw [show (initAggState task_runs_configs
              (dataset_ids_in_filter taskRuns eval_set_filter)).remaining_expected_dataset_ids =
              task_runs_configs.foldl (fun m rcq => alistInsert m rcq.id
                (dataset_ids_in_filter taskRuns eval_set_filter)) [] from rfl,
            lookup_foldl_insert_of_not_mem TaskRunConfig.id
              (fun _ => dataset_ids_in_filter taskRuns eval_set_filter) _ _ _ hinv]
          rfl
        have := foldl_processEvalRun_remaining_none output_scores pre _ rc hninit
        rw [this] at hl
        exact absurd hl (by simp)
      · cases hcfg : r.task_run_config_id with
        | none => simp [processEvalRun, hcfg]
        | some rc =>
          apply processEvalRun_skip output_scores _ r rc hcfg
          intro rem hl hin
          exact hdna (foldl_processEvalRun_remaining_subset output_scores pre
            (dataset_ids_in_filter taskRuns eval_set_filter) _
            (initAggState_remaining_subset task_runs_configs
              (dataset_ids_in_filter taskRuns eval_set_filter)) rc rem hl hin)
    rw [show (pre ++ r :: post).foldl (processEvalRun output_scores)
        (initAggState task_runs_configs
          (dataset_ids_in_filter taskRuns eval_set_filter)) =
        (pre ++ post).foldl (processEvalRun output_scores)
          (initAggState task_runs_configs
            (dataset_ids_in_filter taskRuns eval_set_filter)) from by
      rw [List.foldl_append, List.foldl_append, List.foldl_cons, hskip]]

theorem agg_dup_drop (taskRuns : List TaskRun)
    (eval_set_filter : TaskRun → Bool) (task_runs_configs : List TaskRunConfig)
    (output_scores : List EvalOutputScore) (pre mid post : List EvalRun)
    (r r2 : EvalRun)
    (hc : r2.task_run_config_id = r.task_run_config_id)
    (hd : r2.dataset_id = r.dataset_id) :
    get_eval_config_score_summary taskRuns eval_set_filter task_runs_configs
        output_scores (pre ++ (r :: mid) ++ (r2 :: post)) =
      get_eval_config_score_summary taskRuns eval_set_filter task_runs_configs
        output_scores (pre ++ (r :: mid) ++ post) := by
  by_cases hcard : (dataset_ids_in_filter taskRuns eval_set_filter).card = 0
  · unfold get_eval_config_score_summary
    simp [hcard]
  · rw [get_eval_config_score_summary_ok_shape taskRuns eval_set_filter
      task_runs_configs output_scores (pre ++ (r :: mid) ++ (r2 :: post)) hcard,
      get_eval_config_score_summary_ok_shape taskRuns eval_set_filter
      task_runs_configs output_scores (pre ++ (r :: mid) ++ post) hcard]
    have hskip : processEvalRun output_scores
        ((pre ++ (r :: mid)).foldl (processEvalRun output_scores)
          (initAggState task_runs_configs
            (dataset_ids_in_filter taskRuns eval_set_filter))) r2 =
        (pre ++ (r :: mid)).foldl (processEvalRun output_scores)
          (initAggState task_runs_configs
            (dataset_ids_in_filter taskRuns eval_set_filter)) := by
      cases hcfg : r.task_run_config_id with
      | none =>
        have : r2.task_run_config_id = none := hc.trans hcfg
        simp [processEvalRun, this]
      | some rc =>
        apply processEvalRun_skip output_scores _ r2 rc (hc.trans hcfg)
        rw [List.foldl_append, List.foldl_cons]
        have hafter := processEvalRun_not_mem_after output_scores
          (pre.foldl (processEvalRun output_scores)
            (initAggState task_runs_configs
              (dataset_ids_in_filter taskRuns eval_set_filter))) r rc hcfg
        have hmid := foldl_processEvalRun_not_mem_preserved output_scores mid rc
          r.dataset_id _ hafter
        intro rem hl
        rw [hd]
        exact hmid rem hl
    rw [show (pre ++ (r :: mid) ++ (r2 :: post)).foldl (processEvalRun output_scores)
        (initAggState task_runs_configs
          (dataset_ids_in_filter taskRuns eval_set_filter)) =
        (pre ++ (r :: mid) ++ post).foldl (processEvalRun output_scores)
          (initAggState task_runs_configs
            (dataset_ids_in_filter taskRuns eval_set_filter)) from by
      rw [List.foldl_append] at hskip
      rw [List.foldl_append, List.foldl_append, List.foldl_append, List.foldl_append,
        List.foldl_cons, hskip]]

/-- The flattened `(eval_config_id, run)` stream of the comparator's nested
loop, in processing order. -/
def configRunPairs (eval_configs : List EvalConfig) : List (ℕ × EvalRun) :=
  eval_configs.foldr (fun ec acc => ec.runs.map (fun r => (ec.id, r)) ++ acc) []

theorem cmpFold_eq_flat (output_scores : List EvalOutputScore)
    (normalize_rating : ℚ → ℕ → ℚ) (skMap : List (String × ℕ))
    (items : List (ℕ × TaskRun)) (eval_configs : List EvalConfig) :
    ∀ st0, cmpFold output_scores normalize_rating skMap items eval_configs st0 =
      (configRunPairs eval_configs).foldl
        (processCompareRun output_scores normalize_rating skMap items) st0 := by
  induction eval_configs with
  | nil => intro st0; rfl
  | cons ec rest ih =>
    intro st0
    rw [show configRunPairs (ec :: rest) =
        ec.runs.map (fun r => (ec.id, r)) ++ configRunPairs rest from rfl]
    rw [List.foldl_append]
    rw [show cmpFold output_scores normalize_rating skMap items (ec :: rest) st0 =
        cmpFold output_scores normalize_rating skMap items rest
          (ec.runs.foldl (fun acc2 r =>
            processCompareRun output_scores normalize_rating skMap items acc2
              (ec.id, r)) st0) from rfl]
    rw [ih, List.foldl_map]

/-- The slice of the comparison state belonging to one eval-config id. -/
@[ext]
structure CmpView where
  rem : Option (Finset ℕ)
  calcs : Option (List (String × CorrelationCalculator))
deriving DecidableEq

/-- Project the comparison state onto one eval-config id. -/
def cmpView (st : CmpState) (ec : ℕ) : CmpView :=
  ⟨alistLookup st.remaining_expected_dataset_ids ec,
   alistLookup st.correlation_calculators ec⟩

/-- The action of `compareKeyStep` on the slice of one eval-config id. -/
def calcViewStep (normalize_rating : ℚ → ℕ → ℚ) (skMap : List (String × ℕ))
    (dataset_item : TaskRun) (eval_run : EvalRun)
    (co : Option (List (String × CorrelationCalculator)))
    (output_score : EvalOutputScore) :
    Option (List (String × CorrelationCalculator)) :=
  match human_score_from_task_run dataset_item output_score.json_key skMap,
    alistLookup eval_run.scores output_score.json_key with
  | some h, some e =>
    let inner := co.getD []
    let calculator := ((alistLookup inner output_score.json_key).getD ⟨[]⟩).add_score
      ⟨e, h, normalize_rating e output_score.type, normalize_rating h output_score.type⟩
    some (alistInsert inner output_score.json_key calculator)
  | _, _ => co

theorem compareKeyStep_view_self (normalize_rating : ℚ → ℕ → ℚ)
    (skMap : List (String × ℕ)) (item : TaskRun) (er : EvalRun) (ec : ℕ)
    (calcs : List (ℕ × List (String × CorrelationCalculator)))
    (o : EvalOutputScore) :
    alistLookup (compareKeyStep normalize_rating skMap item er ec calcs o) ec =
      calcViewStep normalize_rating skMap item er (alistLookup calcs ec) o := by
  cases hh : human_score_from_task_run item o.json_key skMap with
  | none =>
    cases he : alistLookup er.scores o.json_key <;>
      simp [compareKeyStep, calcViewStep, hh, he]
  | some h =>
    cases he : alistLookup er.scores o.json_key with
    | none => simp [compareKeyStep, calcViewStep, hh, he]
    | some e =>
      cases hc : alistLookup calcs ec with
      | none =>
        simp [compareKeyStep, calcViewStep, hh, he, hc, alistLookup_insert]
      | some inner =>
        simp [compareKeyStep, calcViewStep, hh, he, hc, alistLookup_insert]

theorem compareKeyStep_view_ne (normalize_rating : ℚ → ℕ → ℚ)
    (skMap : List (String × ℕ)) (item : TaskRun) (er : EvalRun) (ec : ℕ)
    (calcs : List (ℕ × List (String × CorrelationCalculator)))
    (o : EvalOutputScore) (ec2 : ℕ) (hne : ¬ ec2 = ec) :
    alistLookup (compareKeyStep normalize_rating skMap item er ec calcs o) ec2 =
      alistLookup calcs ec2 := by
  cases hh : human_score_from_task_run item o.json_key skMap with
  | none =>
    cases he : alistLookup er.scores o.json_key <;>
      simp [compareKeyStep, hh, he]
  | some h =>
    cases he : alistLookup er.scores o.json_key with
    | none => simp [compareKeyStep, hh, he]
    | some e =>
      cases hc : alistLookup calcs ec with
      | none => simp [compareKeyStep, hh, he, hc, alistLookup_insert, hne]
      | some inner => simp [compareKeyStep, hh, he, hc, alistLookup_insert, hne]

theorem compareKeyStep_fold_view_self (normalize_rating : ℚ → ℕ → ℚ)
    (skMap : List (String × ℕ)) (item : TaskRun) (er : EvalRun) (ec : ℕ)
    (os : List EvalOutputScore) :
    ∀ calcs, alistLookup
        (os.foldl (compareKeyStep normalize_rating skMap item er ec) calcs) ec =
      os.foldl (calcViewStep normalize_rating skMap item er)
        (alistLookup calcs ec) := by
  induction os with
  | nil => intro calcs; rfl
  | cons o os' ih =>
    intro calcs
    rw [List.foldl_cons, List.foldl_cons, ih, compareKeyStep_view_self]

theorem compareKeyStep_fold_view_ne (normalize_rating : ℚ → ℕ → ℚ)
    (skMap : List (String × ℕ)) (item : TaskRun) (er : EvalRun) (ec : ℕ)
    (os : List EvalOutputScore) (ec2 : ℕ) (hne : ¬ ec2 = ec) :
    ∀ calcs, alistLookup
        (os.foldl (compareKeyStep normalize_rating skMap item er ec) calcs) ec2 =
      alistLookup calcs ec2 := by
  induction os with
  | nil => intro calcs; rfl
  | cons o os' ih =>
    intro calcs
    rw [List.foldl_cons, ih, compareKeyStep_view_ne _ _ _ _ _ _ _ _ hne]

/-- The action of `processCompareRun` on the slice of one eval-config id. -/
def cmpStep (output_scores : List EvalOutputScore)
    (normalize_rating : ℚ → ℕ → ℚ) (skMap : List (String × ℕ))
    (items : List (ℕ × TaskRun)) (ec : ℕ) (v : CmpView) (p : ℕ × EvalRun) :
    CmpView :=
  if p.1 = ec then
    match alistLookup items p.2.dataset_id with
    | none => v
    | some item =>
      if p.2.dataset_id ∈ v.rem.getD ∅ then
        ⟨some ((v.rem.getD ∅).erase p.2.dataset_id),
         output_scores.foldl (calcViewStep normalize_rating skMap item p.2) v.calcs⟩
      else v
  else v

theorem cmpView_processCompareRun (output_scores : List EvalOutputScore)
    (normalize_rating : ℚ → ℕ → ℚ) (skMap : List (String × ℕ))
    (items : List (ℕ × TaskRun)) (st : CmpState) (p : ℕ × EvalRun) (ec : ℕ) :
    cmpView (processCompareRun output_scores normalize_rating skMap items st p) ec =
      cmpStep output_scores normalize_rating skMap items ec (cmpView st ec) p := by
  cases hitem : alistLookup items p.2.dataset_id with
  | none =>
    by_cases hec : p.1 = ec <;>
      simp [processCompareRun, cmpStep, hitem, hec]
  | some item =>
    by_cases hec : p.1 = ec
    · subst hec
      by_cases hmem : p.2.dataset_id ∈
          (alistLookup st.remaining_expected_dataset_ids p.1).getD ∅
      · simp only [processCompareRun, cmpStep, hitem, hmem, if_pos, if_true, cmpView]
        refine CmpView.ext ?_ ?_
        · simp [alistLookup_insert, hmem]
        · simp [compareKeyStep_fold_view_self, hmem]
      · simp [processCompareRun, cmpStep, hitem, hmem, cmpView]
    · by_cases hmem : p.2.dataset_id ∈
          (alistLookup st.remaining_expected_dataset_ids p.1).getD ∅
      · simp only [processCompareRun, cmpStep, hitem, hmem, if_true, cmpView]
        rw [if_neg hec]
        refine CmpView.ext ?_ ?_
        · dsimp only
          rw [alistLookup_insert, if_neg (fun h => hec h.symm)]
        · dsimp only
          exact compareKeyStep_fold_view_ne normalize_rating skMap item p.2 p.1
            output_scores ec (fun h => hec h.symm) st.correlation_calculators
      · simp [processCompareRun, cmpStep, hitem, hmem, cmpView, hec]

theorem cmpView_foldl (output_scores : List EvalOutputScore)
    (normalize_rating : ℚ → ℕ → ℚ) (skMap : List (String × ℕ))
    (items : List (ℕ × TaskRun)) (pairs : List (ℕ × EvalRun)) :
    ∀ st ec, cmpView (pairs.foldl
        (processCompareRun output_scores normalize_rating skMap items) st) ec =
      pairs.foldl (cmpStep output_scores normalize_rating skMap items ec)
        (cmpView st ec) := by
  induction pairs with
  | nil => intro st ec; rfl
  | cons p ps ih =>
    intro st ec
    rw [List.foldl_cons, List.foldl_cons, ih, cmpView_processCompareRun]

/-- The `(run, dataset item)` pairs counted for eval-config `ec` out of the
flattened stream: the dataset id must be among the expected items and not yet
seen for `ec` (first occurrence wins). -/
def countedCmp (ec : ℕ) (items : List (ℕ × TaskRun)) (rem : Finset ℕ) :
    List (ℕ × EvalRun) → List (EvalRun × TaskRun)
  | [] => []
  | p :: ps =>
    match alistLookup items p.2.dataset_id with
    | some item =>
      if p.1 = ec ∧ p.2.dataset_id ∈ rem then
        (p.2, item) :: countedCmp ec items (rem.erase p.2.dataset_id) ps
      else countedCmp ec items rem ps
    | none => countedCmp ec items rem ps

/-- The remaining-id set of eval-config `ec` after the flattened stream. -/
def remAfterCmp (ec : ℕ) (items : List (ℕ × TaskRun)) (rem : Finset ℕ) :
    List (ℕ × EvalRun) → Finset ℕ
  | [] => rem
  | p :: ps =>
    match alistLookup items p.2.dataset_id with
    | some _ =>
      if p.1 = ec ∧ p.2.dataset_id ∈ rem then
        remAfterCmp ec items (rem.erase p.2.dataset_id) ps
      else remAfterCmp ec items rem ps
    | none => remAfterCmp ec items rem ps

/-- Replay the per-run accumulator updates (the inner loop of
`processCompareRun`) over a list of counted `(run, item)` pairs. -/
def applyCmpRuns (output_scores : List EvalOutputScore)
    (normalize_rating : ℚ → ℕ → ℚ) (skMap : List (String × ℕ)) :
    List (EvalRun × TaskRun) →
      Option (List (String × CorrelationCalculator)) →
      Option (List (String × CorrelationCalculator))
  | [], co => co
  | q :: qs, co =>
    applyCmpRuns output_scores normalize_rating skMap qs
      (output_scores.foldl (calcViewStep normalize_rating skMap q.2 q.1) co)

theorem cmpStep_foldl_char (output_scores : List EvalOutputScore)
    (normalize_rating : ℚ → ℕ → ℚ) (skMap : List (String × ℕ))
    (items : List (ℕ × TaskRun)) (ec : ℕ) (pairs : List (ℕ × EvalRun)) :
    ∀ (rem : Finset ℕ) (co : Option (List (String × CorrelationCalculator))),
    pairs.foldl (cmpStep output_scores normalize_rating skMap items ec)
        ⟨some rem, co⟩ =
      ⟨some (remAfterCmp ec items rem pairs),
       applyCmpRuns output_scores normalize_rating skMap
         (countedCmp ec items rem pairs) co⟩ := by
  induction pairs with
  | nil =>
    intro rem co
    simp [remAfterCmp, countedCmp, applyCmpRuns]
  | cons p ps ih =>
    intro rem co
    cases hitem : alistLookup items p.2.dataset_id with
    | none =>
      rw [List.foldl_cons,
        show cmpStep output_scores normalize_rating skMap items ec ⟨some rem, co⟩ p =
          ⟨some rem, co⟩ from by
          by_cases hec : p.1 = ec <;> simp [cmpStep, hitem, hec], ih]
      rw [show remAfterCmp ec items rem (p :: ps) = remAfterCmp ec items rem ps from by
        simp [remAfterCmp, hitem]]
      rw [show countedCmp ec items rem (p :: ps) = countedCmp ec items rem ps from by
        simp [countedCmp, hitem]]
    | some item =>
      by_cases hit : p.1 = ec ∧ p.2.dataset_id ∈ rem
      · rw [List.foldl_cons,
          show cmpStep output_scores normalize_rating skMap items ec ⟨some rem, co⟩ p =
            ⟨some (rem.erase p.2.dataset_id),
             output_scores.foldl (calcViewStep normalize_rating skMap item p.2) co⟩ from by
            simp [cmpStep, hitem, hit.1, hit.2], ih]
        rw [show remAfterCmp ec items rem (p :: ps) =
            remAfterCmp ec items (rem.erase p.2.dataset_id) ps from by
          simp [remAfterCmp, hitem, hit.1, hit.2]]
        rw [show countedCmp ec items rem (p :: ps) =
            (p.2, item) :: countedCmp ec items (rem.erase p.2.dataset_id) ps from by
          simp [countedCmp, hitem, hit.1, hit.2]]
        rfl
      · rw [List.foldl_cons,
          show cmpStep output_scores normalize_rating skMap items ec ⟨some rem, co⟩ p =
            ⟨some rem, co⟩ from by
            by_cases hec : p.1 = ec
            · have hmem : ¬ p.2.dataset_id ∈ rem := fun hm => hit ⟨hec, hm⟩
              simp [cmpStep, hitem, hec, hmem]
            · simp [cmpStep, hitem, hec], ih]
        rw [show remAfterCmp ec items rem (p :: ps) = remAfterCmp ec items rem ps from by
          simp only [remAfterCmp, hitem, if_neg hit]]
        rw [show countedCmp ec items rem (p :: ps) = countedCmp ec items rem ps from by
          simp only [countedCmp, hitem, if_neg hit]]

theorem calcViewStep_lookup_self (normalize_rating : ℚ → ℕ → ℚ)
    (skMap : List (String × ℕ)) (item : TaskRun) (er : EvalRun)
    (co : Option (List (String × CorrelationCalculator))) (o : EvalOutputScore) :
    alistLookup ((calcViewStep normalize_rating skMap item er co o).getD [])
        o.json_key =
      match human_score_from_task_run item o.json_key skMap,
        alistLookup er.scores o.json_key with
      | some h, some e =>
          some (((alistLookup (co.getD []) o.json_key).getD ⟨[]⟩).add_score
            ⟨e, h, normalize_rating e o.type, normalize_rating h o.type⟩)
      | _, _ => alistLookup (co.getD []) o.json_key := by
  cases hh : human_score_from_task_run item o.json_key skMap with
  | none =>
    cases he : alistLookup er.scores o.json_key <;>
      simp [calcViewStep, hh, he]
  | some h =>
    cases he : alistLookup er.scores o.json_key with
    | none => simp [calcViewStep, hh, he]
    | some e => simp [calcViewStep, hh, he, alistLookup_insert]

theorem calcViewStep_lookup_ne (normalize_rating : ℚ → ℕ → ℚ)
    (skMap : List (String × ℕ)) (item : TaskRun) (er : EvalRun)
    (co : Option (List (String × CorrelationCalculator))) (o : EvalOutputScore)
    (sk : String) (hne : ¬ sk = o.json_key) :
    alistLookup ((calcViewStep normalize_rating skMap item er co o).getD []) sk =
      alistLookup (co.getD []) sk := by
  cases hh : human_score_from_task_run item o.json_key skMap with
  | none =>
    cases he : alistLookup er.scores o.json_key <;>
      simp [calcViewStep, hh, he]
  | some h =>
    cases he : alistLookup er.scores o.json_key with
    | none => simp [calcViewStep, hh, he]
    | some e => simp [calcViewStep, hh, he, alistLookup_insert, hne]

theorem calcFold_lookup_of_not_mem (normalize_rating : ℚ → ℕ → ℚ)
    (skMap : List (String × ℕ)) (item : TaskRun) (er : EvalRun)
    (os : List EvalOutputScore) (sk : String)
    (h : sk ∉ os.map EvalOutputScore.json_key) :
    ∀ co, alistLookup
        ((os.foldl (calcViewStep normalize_rating skMap item er) co).getD []) sk =
      alistLookup (co.getD []) sk := by
  induction os with
  | nil => intro co; rfl
  | cons o os' ih =>
    intro co
    simp only [List.map_cons, List.mem_cons] at h
    push_neg at h
    rw [List.foldl_cons, ih (by simpa using h.2),
      calcViewStep_lookup_ne _ _ _ _ _ _ _ h.1]

theorem calcFold_lookup_of_mem (normalize_rating : ℚ → ℕ → ℚ)
    (skMap : List (String × ℕ)) (item : TaskRun) (er : EvalRun)
    (os : List EvalOutputScore) (sk : String) (t : ℕ)
    (hsk : EvalOutputScore.mk sk t ∈ os)
    (hnd : (os.map EvalOutputScore.json_key).Nodup) :
    ∀ co, alistLookup
        ((os.foldl (calcViewStep normalize_rating skMap item er) co).getD []) sk =
      match human_score_from_task_run item sk skMap,
        alistLookup er.scores sk with
      | some h, some e =>
          some (((alistLookup (co.getD []) sk).getD ⟨[]⟩).add_score
            ⟨e, h, normalize_rating e t, normalize_rating h t⟩)
      | _, _ => alistLookup (co.getD []) sk := by
  induction os with
  | nil => simp at hsk
  | cons o os' ih =>
    intro co
    rw [List.map_cons, List.nodup_cons] at hnd
    by_cases ho : o.json_key = sk
    · have hosk : o = EvalOutputScore.mk sk t := by
        rcases List.mem_cons.mp hsk with he | he
        · exact he.symm
        · exfalso
          apply hnd.1
          rw [ho]
          exact List.mem_map.mpr ⟨⟨sk, t⟩, he, rfl⟩
      subst hosk
      rw [List.foldl_cons, calcFold_lookup_of_not_mem _ _ _ _ _ _ hnd.1,
        calcViewStep_lookup_self]
    · have hsk' : EvalOutputScore.mk sk t ∈ os' := by
        rcases List.mem_cons.mp hsk with he | he
        · exact absurd (congrArg EvalOutputScore.json_key he.symm) ho
        · exact he
      rw [List.foldl_cons, ih hsk' hnd.2,
        calcViewStep_lookup_ne _ _ _ _ _ _ _ (fun hh => ho hh.symm)]

/-- The correlation-score pairs a list of counted `(run, item)` pairs feeds
into the `(eval-config, sk)` accumulator: exactly those where both the
automated score and the human rating exist. -/
def validPairs (normalize_rating : ℚ → ℕ → ℚ) (skMap : List (String × ℕ))
    (sk : String) (t : ℕ) (l : List (EvalRun × TaskRun)) :
    List CorrelationScore :=
  l.filterMap (fun q =>
    match human_score_from_task_run q.2 sk skMap,
      alistLookup q.1.scores sk with
    | some h, some e =>
        some ⟨e, h, normalize_rating e t, normalize_rating h t⟩
    | _, _ => none)

theorem applyCmpRuns_lookup (normalize_rating : ℚ → ℕ → ℚ)
    (skMap : List (String × ℕ)) (os : List EvalOutputScore) (sk : String)
    (t : ℕ) (hsk : EvalOutputScore.mk sk t ∈ os)
    (hnd : (os.map EvalOutputScore.json_key).Nodup)
    (l : List (EvalRun × TaskRun)) :
    ∀ co, alistLookup
        ((applyCmpRuns os normalize_rating skMap l co).getD []) sk =
      (if validPairs normalize_rating skMap sk t l = [] then
        alistLookup (co.getD []) sk
      else
        some (CorrelationCalculator.mk
          (((alistLookup (co.getD []) sk).getD ⟨[]⟩).scores ++
            validPairs normalize_rating skMap sk t l))) := by
  induction l with
  | nil =>
    intro co
    simp [validPairs, applyCmpRuns]
  | cons q qs ih =>
    intro co
    rw [show applyCmpRuns os normalize_rating skMap (q :: qs) co =
        applyCmpRuns os normalize_rating skMap qs
          (os.foldl (calcViewStep normalize_rating skMap q.2 q.1) co) from rfl]
    rw [ih]
    have hself := calcFold_lookup_of_mem normalize_rating skMap q.2 q.1 os sk t
      hsk hnd co
    cases hh : human_score_from_task_run q.2 sk skMap with
    | none =>
      rw [hh] at hself
      have hvp : validPairs normalize_rating skMap sk t (q :: qs) =
          validPairs normalize_rating skMap sk t qs := by
        cases he : alistLookup q.1.scores sk <;>
          simp [validPairs, List.filterMap_cons, hh, he]
      rw [hvp]
      by_cases hnil : validPairs normalize_rating skMap sk t qs = []
      · rw [if_pos hnil, if_pos hnil]
        cases he : alistLookup q.1.scores sk <;> rw [he] at hself <;> rw [hself]
      · rw [if_neg hnil, if_neg hnil]
        cases he : alistLookup q.1.scores sk <;> rw [he] at hself <;> rw [hself]
    | some h =>
      cases he : alistLookup q.1.scores sk with
      | none =>
        rw [hh, he] at hself
        have hvp : validPairs normalize_rating skMap sk t (q :: qs) =
            validPairs normalize_rating skMap sk t qs := by
          simp [validPairs, List.filterMap_cons, hh, he]
        rw [hvp]
        by_cases hnil : validPairs normalize_rating skMap sk t qs = []
        · rw [if_pos hnil, if_pos hnil, hself]
        · rw [if_neg hnil, if_neg hnil, hself]
      | some e =>
        rw [hh, he] at hself
        have hvp : validPairs normalize_rating skMap sk t (q :: qs) =
            ⟨e, h, normalize_rating e t, normalize_rating h t⟩ ::
              validPairs normalize_rating skMap sk t qs := by
          simp [validPairs, List.filterMap_cons, hh, he]
        rw [hvp]
        by_cases hnil : validPairs normalize_rating skMap sk t qs = []
        · rw [if_pos hnil, if_neg (by simp)]
          rw [hself]
          simp [CorrelationCalculator.add_score, hnil]
        · rw [if_neg hnil, if_neg (by simp)]
          rw [hself]
          simp [CorrelationCalculator.add_score]

theorem calcFold_all_invalid (normalize_rating : ℚ → ℕ → ℚ)
    (skMap : List (String × ℕ)) (item : TaskRun) (er : EvalRun)
    (os : List EvalOutputScore)
    (h : ∀ o ∈ os, human_score_from_task_run item o.json_key skMap = none ∨
      alistLookup er.scores o.json_key = none) :
    ∀ co, os.foldl (calcViewStep normalize_rating skMap item er) co = co := by
  induction os with
  | nil => intro co; rfl
  | cons o os' ih =>
    intro co
    rw [List.foldl_cons]
    have hstep : calcViewStep normalize_rating skMap item er co o = co := by
      rcases h o (List.mem_cons_self o os') with hh | he
      · cases he2 : alistLookup er.scores o.json_key <;>
          simp [calcViewStep, hh, he2]
      · cases hh2 : human_score_from_task_run item o.json_key skMap <;>
          simp [calcViewStep, hh2, he]
    rw [hstep]
    exact ih (fun o2 ho2 => h o2 (List.mem_cons_of_mem o ho2)) co

theorem applyCmpRuns_all_invalid (normalize_rating : ℚ → ℕ → ℚ)
    (skMap : List (String × ℕ)) (os : List EvalOutputScore)
    (l : List (EvalRun × TaskRun))
    (h : ∀ q ∈ l, ∀ o ∈ os,
      human_score_from_task_run q.2 o.json_key skMap = none ∨
      alistLookup q.1.scores o.json_key = none) :
    ∀ co, applyCmpRuns os normalize_rating skMap l co = co := by
  induction l with
  | nil => intro co; rfl
  | cons q qs ih =>
    intro co
    rw [show applyCmpRuns os normalize_rating skMap (q :: qs) co =
        applyCmpRuns os normalize_rating skMap qs
          (os.foldl (calcViewStep normalize_rating skMap q.2 q.1) co) from rfl]
    rw [calcFold_all_invalid normalize_rating skMap q.2 q.1 os
      (h q (List.mem_cons_self q qs)) co]
    exact ih (fun q2 hq2 => h q2 (List.mem_cons_of_mem q hq2)) co

theorem compareResults_lookup
    (calcs : List (ℕ × List (String × CorrelationCalculator))) (ec : ℕ) :
    alistLookup (compareResults calcs) ec = (alistLookup calcs ec).map
      (fun inner => inner.map (fun q => (q.1, q.2.calculate_correlation))) := by
  unfold compareResults
  exact alistLookup_map_value calcs
    (fun _ inner => inner.map (fun q => (q.1, q.2.calculate_correlation))) ec

theorem inner_results_lookup (inner : List (String × CorrelationCalculator))
    (sk : String) :
    alistLookup (inner.map (fun q => (q.1, q.2.calculate_correlation))) sk =
      (alistLookup inner sk).map CorrelationCalculator.calculate_correlation := by
  exact alistLookup_map_value inner
    (fun _ c => c.calculate_correlation) sk

theorem cmpView_init_of_mem (eval_configs : List EvalConfig) (E : Finset ℕ)
    (ec : ℕ) (h : ec ∈ eval_configs.map EvalConfig.id) :
    cmpView (initCmpState eval_configs E) ec = ⟨some E, none⟩ := by
  unfold cmpView initCmpState
  refine CmpView.ext ?_ rfl
  exact lookup_foldl_insert_of_mem EvalConfig.id (fun _ => E) _ _ _ h

theorem cmpPercentMap_lookup_of_mem (eval_configs : List EvalConfig)
    (st : CmpState) (dataset_size : ℕ) (ec : ℕ)
    (h : ec ∈ eval_configs.map EvalConfig.id) :
    alistLookup (cmpPercentMap eval_configs st dataset_size) ec =
      some (1 - (((alistLookup st.remaining_expected_dataset_ids ec).getD ∅).card : ℚ) /
        (dataset_size : ℚ)) := by
  unfold cmpPercentMap
  exact lookup_foldl_insert_of_mem EvalConfig.id
    (fun k => 1 - (((alistLookup st.remaining_expected_dataset_ids k).getD ∅).card : ℚ) /
      (dataset_size : ℚ)) eval_configs [] ec h

theorem get_eval_configs_score_summary_shape (taskRuns : List TaskRun)
    (requirements : List TaskRequirement) (string_to_json_key : String → String)
    (output_scores : List EvalOutputScore) (normalize_rating : ℚ → ℕ → ℚ)
    (eval_configs_filter : TaskRun → Bool) (eval_configs : List EvalConfig)
    (hcard : ¬ (((expectedItems taskRuns eval_configs_filter).map
      Prod.fst).toFinset.card = 0)) :
    get_eval_configs_score_summary taskRuns requirements string_to_json_key
        output_scores normalize_rating eval_configs_filter eval_configs =
      ⟨compareResults (cmpFold output_scores normalize_rating
          (score_key_map requirements string_to_json_key)
          (expectedItems taskRuns eval_configs_filter) eval_configs
          (initCmpState eval_configs
            ((expectedItems taskRuns eval_configs_filter).map
              Prod.fst).toFinset)).correlation_calculators,
       cmpPercentMap eval_configs
         (cmpFold output_scores normalize_rating
           (score_key_map requirements string_to_json_key)
           (expectedItems taskRuns eval_configs_filter) eval_configs
           (initCmpState eval_configs
             ((expectedItems taskRuns eval_configs_filter).map Prod.fst).toFinset))
         ((expectedItems taskRuns eval_configs_filter).map Prod.fst).toFinset.card,
       ((expectedItems taskRuns eval_configs_filter).map Prod.fst).toFinset.card,
       (count_human_evals ((expectedItems taskRuns eval_configs_filter).map Prod.snd)
         output_scores (score_key_map requirements string_to_json_key)).1,
       (count_human_evals ((expectedItems taskRuns eval_configs_filter).map Prod.snd)
         output_scores (score_key_map requirements string_to_json_key)).2.1,
       (count_human_evals ((expectedItems taskRuns eval_configs_filter).map Prod.snd)
         output_scores (score_key_map requirements string_to_json_key)).2.2⟩ := by
  unfold get_eval_configs_score_summary
  rw [if_neg hcard]

theorem cmpView_final (output_scores : List EvalOutputScore)
    (normalize_rating : ℚ → ℕ → ℚ) (skMap : List (String × ℕ))
    (items : List (ℕ × TaskRun)) (eval_configs : List EvalConfig)
    (E : Finset ℕ) (ec : ℕ) (hec : ec ∈ eval_configs.map EvalConfig.id) :
    cmpView (cmpFold output_scores normalize_rating skMap items eval_configs
        (initCmpState eval_configs E)) ec =
      ⟨some (remAfterCmp ec items E (configRunPairs eval_configs)),
       applyCmpRuns output_scores normalize_rating skMap
         (countedCmp ec items E (configRunPairs eval_configs)) none⟩ := by
  rw [cmpFold_eq_flat, cmpView_foldl, cmpView_init_of_mem _ _ _ hec,
    cmpStep_foldl_char]

theorem countedCmp_nil_items (ec : ℕ) (pairs : List (ℕ × EvalRun)) :
    ∀ rem, countedCmp ec [] rem pairs = [] := by
  induction pairs with
  | nil => intro rem; rfl
  | cons p ps ih =>
    intro rem
    rw [show countedCmp ec [] rem (p :: ps) = countedCmp ec [] rem ps from by
      simp [countedCmp, alistLookup]]
    exact ih rem

/-- C6: correlation requires pairing. For an eval-configuration of the
evaluator and a declared score key (distinct declared keys), the
`(eval-configuration, key)` entry of `get_eval_configs_score_summary`'s
results exists iff some counted run has both the automated score and the
human rating for that key; in that case the finalized accumulator holds
exactly the `validPairs` list (so runs lacking either side contribute to
neither the correlation nor the pair count), and with zero valid pairs the
entry is omitted rather than zero-filled. -/
theorem correlation_requires_pairing (taskRuns : List TaskRun)
    (requirements : List TaskRequirement) (string_to_json_key : String → String)
    (output_scores : List EvalOutputScore) (normalize_rating : ℚ → ℕ → ℚ)
    (eval_configs_filter : TaskRun → Bool) (eval_configs : List EvalConfig)
    (ec_id : ℕ) (sk : String) (t : ℕ)
    (hec : ec_id ∈ eval_configs.map EvalConfig.id)
    (hsk : EvalOutputScore.mk sk t ∈ output_scores)
    (hnd : (output_scores.map EvalOutputScore.json_key).Nodup) :
    (validPairs normalize_rating (score_key_map requirements string_to_json_key)
        sk t (countedCmp ec_id (expectedItems taskRuns eval_configs_filter)
          ((expectedItems taskRuns eval_configs_filter).map Prod.fst).toFinset
          (configRunPairs eval_configs)) = [] →
      alistLookup (get_eval_configs_score_summary taskRuns requirements
          string_to_json_key output_scores normalize_rating eval_configs_filter
          eval_configs).results ec_id = none ∨
      ∃ inner, alistLookup (get_eval_configs_score_summary taskRuns requirements
          string_to_json_key output_scores normalize_rating eval_configs_filter
          eval_configs).results ec_id = some inner ∧
        alistLookup inner sk = none) ∧
    (validPairs normalize_rating (score_key_map requirements string_to_json_key)
        sk t (countedCmp ec_id (expectedItems taskRuns eval_configs_filter)
          ((expectedItems taskRuns eval_configs_filter).map Prod.fst).toFinset
          (configRunPairs eval_configs)) ≠ [] →
      ∃ inner, alistLookup (get_eval_configs_score_summary taskRuns requirements
          string_to_json_key output_scores normalize_rating eval_configs_filter
          eval_configs).results ec_id = some inner ∧
        alistLookup inner sk = some ((CorrelationCalculator.mk
          (validPairs normalize_rating
            (score_key_map requirements string_to_json_key) sk t
            (countedCmp ec_id (expectedItems taskRuns eval_configs_filter)
              ((expectedItems taskRuns eval_configs_filter).map Prod.fst).toFinset
              (configRunPairs eval_configs)))).calculate_correlation)) := by
  by_cases hcard : (((expectedItems taskRuns eval_configs_filter).map
      Prod.fst).toFinset.card = 0)
  · have hitems : expectedItems taskRuns eval_configs_filter = [] := by
      have hmap : ((expectedItems taskRuns eval_configs_filter).map Prod.fst) = [] := by
        have := Finset.card_eq_zero.mp hcard
        exact List.toFinset_eq_empty_iff _ |>.mp this
      exact List.map_eq_nil_iff.mp hmap
    have hcnt : countedCmp ec_id (expectedItems taskRuns eval_configs_filter)
        ((expectedItems taskRuns eval_configs_filter).map Prod.fst).toFinset
        (configRunPairs eval_configs) = [] := by
      rw [hitems]
      exact countedCmp_nil_items _ _ _
    constructor
    · intro _
      left
      rw [show get_eval_configs_score_summary taskRuns requirements
          string_to_json_key output_scores normalize_rating eval_configs_filter
          eval_configs = ⟨[], [], 0, 0, 0, 0⟩ from by
        unfold get_eval_configs_score_summary
        rw [if_pos hcard]]
      rfl
    · intro hne
      rw [hcnt] at hne
      simp [validPairs] at hne
  · rw [get_eval_configs_score_summary_shape taskRuns requirements
      string_to_json_key output_scores normalize_rating eval_configs_filter
      eval_configs hcard]
    dsimp only
    have hview := cmpView_final output_scores normalize_rating
      (score_key_map requirements string_to_json_key)
      (expectedItems taskRuns eval_configs_filter) eval_configs
      ((expectedItems taskRuns eval_configs_filter).map Prod.fst).toFinset
      ec_id hec
    have hcalcs := congrArg CmpView.calcs hview
    simp only [cmpView] at hcalcs
    have hlook := applyCmpRuns_lookup normalize_rating
      (score_key_map requirements string_to_json_key) output_scores sk t hsk hnd
      (countedCmp ec_id (expectedItems taskRuns eval_configs_filter)
        ((expectedItems taskRuns eval_configs_filter).map Prod.fst).toFinset
        (configRunPairs eval_configs)) none
    constructor
    · intro hnil
      rw [if_pos hnil] at hlook
      cases hco : applyCmpRuns output_scores normalize_rating
          (score_key_map requirements string_to_json_key)
          (countedCmp ec_id (expectedItems taskRuns eval_configs_filter)
            ((expectedItems taskRuns eval_configs_filter).map Prod.fst).toFinset
            (configRunPairs eval_configs)) none with
      | none =>
        left
        rw [compareResults_lookup, hcalcs, hco]
        rfl
      | some inner =>
        right
        refine ⟨inner.map (fun q => (q.1, q.2.calculate_correlation)), ?_, ?_⟩
        · rw [compareResults_lookup, hcalcs, hco]
          rfl
        · rw [inner_results_lookup]
          rw [hco] at hlook
          simp only [Option.getD_some, Option.getD_none, alistLookup_nil] at hlook
          rw [hlook]
          rfl
    · intro hne
      rw [if_neg hne] at hlook
      obtain ⟨inner, hco⟩ : ∃ inner, applyCmpRuns output_scores normalize_rating
          (score_key_map requirements string_to_json_key)
          (countedCmp ec_id (expectedItems taskRuns eval_configs_filter)
            ((expectedItems taskRuns eval_configs_filter).map Prod.fst).toFinset
            (configRunPairs eval_configs)) none = some inner := by
        cases hco : applyCmpRuns output_scores normalize_rating
            (score_key_map requirements string_to_json_key)
            (countedCmp ec_id (expectedItems taskRuns eval_configs_filter)
              ((expectedItems taskRuns eval_configs_filter).map Prod.fst).toFinset
              (configRunPairs eval_configs)) none with
        | none =>
          rw [hco] at hlook
          simp [alistLookup] at hlook
        | some inner => exact ⟨inner, rfl⟩
      refine ⟨inner.map (fun q => (q.1, q.2.calculate_correlation)), ?_, ?_⟩
      · rw [compareResults_lookup, hcalcs, hco]
        rfl
      · rw [inner_results_lookup]
        rw [hco] at hlook
        simp only [Option.getD_some, Option.getD_none, alistLookup_nil,
          List.nil_append] at hlook
        rw [hlook]
        rfl

theorem processCompareRun_skip (output_scores : List EvalOutputScore)
    (normalize_rating : ℚ → ℕ → ℚ) (skMap : List (String × ℕ))
    (items : List (ℕ × TaskRun)) (st : CmpState) (p : ℕ × EvalRun)
    (h : alistLookup items p.2.dataset_id = none ∨
      p.2.dataset_id ∉
        (alistLookup st.remaining_expected_dataset_ids p.1).getD ∅) :
    processCompareRun output_scores normalize_rating skMap items st p = st := by
  rcases h with h | h
  · simp [processCompareRun, h]
  · cases hitem : alistLookup items p.2.dataset_id with
    | none => simp [processCompareRun, hitem]
    | some item => simp [processCompareRun, hitem, h]

theorem processCompareRun_not_mem_after (output_scores : List EvalOutputScore)
    (normalize_rating : ℚ → ℕ → ℚ) (skMap : List (String × ℕ))
    (items : List (ℕ × TaskRun)) (st : CmpState) (ec : ℕ) (r : EvalRun)
    (hitem : ¬ alistLookup items r.dataset_id = none) :
    r.dataset_id ∉
      (alistLookup (processCompareRun output_scores normalize_rating skMap items
        st (ec, r)).remaining_expected_dataset_ids ec).getD ∅ := by
  cases hit : alistLookup items r.dataset_id with
  | none => exact absurd hit hitem
  | some item =>
    by_cases hmem : r.dataset_id ∈
        (alistLookup st.remaining_expected_dataset_ids ec).getD ∅
    · rw [show (processCompareRun output_scores normalize_rating skMap items st
          (ec, r)).remaining_expected_dataset_ids =
          alistInsert st.remaining_expected_dataset_ids ec
            (((alistLookup st.remaining_expected_dataset_ids ec).getD ∅).erase
              r.dataset_id) from by
        simp [processCompareRun, hit, hmem]]
      rw [alistLookup_insert, if_pos rfl]
      simp
    · rw [show processCompareRun output_scores normalize_rating skMap items st
          (ec, r) = st from by
        simp [processCompareRun, hit, hmem]]
      exact hmem

theorem processCompareRun_not_mem_preserved (output_scores : List EvalOutputScore)
    (normalize_rating : ℚ → ℕ → ℚ) (skMap : List (String × ℕ))
    (items : List (ℕ × TaskRun)) (st : CmpState) (p : ℕ × EvalRun) (ec : ℕ)
    (d : ℕ)
    (h : d ∉ (alistLookup st.remaining_expected_dataset_ids ec).getD ∅) :
    d ∉ (alistLookup (processCompareRun output_scores normalize_rating skMap
        items st p).remaining_expected_dataset_ids ec).getD ∅ := by
  cases hit : alistLookup items p.2.dataset_id with
  | none =>
    rw [show processCompareRun output_scores normalize_rating skMap items st p =
        st from by simp [processCompareRun, hit]]
    exact h
  | some item =>
    by_cases hmem : p.2.dataset_id ∈
        (alistLookup st.remaining_expected_dataset_ids p.1).getD ∅
    · rw [show (processCompareRun output_scores normalize_rating skMap items st
          p).remaining_expected_dataset_ids =
          alistInsert st.remaining_expected_dataset_ids p.1
            (((alistLookup st.remaining_expected_dataset_ids p.1).getD ∅).erase
              p.2.dataset_id) from by
        simp [processCompareRun, hit, hmem]]
      rw [alistLookup_insert]
      by_cases hec : ec = p.1
      · rw [if_pos hec]
        intro hin
        rw [hec] at h
        exact h (Finset.mem_of_mem_erase (by simpa using hin))
      · rw [if_neg hec]
        exact h
    · rw [show processCompareRun output_scores normalize_rating skMap items st
          p = st from by simp [processCompareRun, hit, hmem]]
      exact h

theorem foldl_processCompareRun_not_mem_preserved
    (output_scores : List EvalOutputScore) (normalize_rating : ℚ → ℕ → ℚ)
    (skMap : List (String × ℕ)) (items : List (ℕ × TaskRun))
    (pairs : List (ℕ × EvalRun)) (ec : ℕ) (d : ℕ) :
    ∀ st, d ∉ (alistLookup st.remaining_expected_dataset_ids ec).getD ∅ →
      d ∉ (alistLookup (pairs.foldl (processCompareRun output_scores
          normalize_rating skMap items) st).remaining_expected_dataset_ids
        ec).getD ∅ := by
  induction pairs with
  | nil => intro st h; exact h
  | cons p ps ih =>
    intro st h
    exact ih _ (processCompareRun_not_mem_preserved output_scores normalize_rating
      skMap items st p ec d h)

theorem configRunPairs_append (l1 l2 : List EvalConfig) :
    configRunPairs (l1 ++ l2) = configRunPairs l1 ++ configRunPairs l2 := by
  induction l1 with
  | nil => rfl
  | cons ec rest ih =>
    rw [List.cons_append,
      show configRunPairs (ec :: (rest ++ l2)) =
        ec.runs.map (fun r => (ec.id, r)) ++ configRunPairs (rest ++ l2) from rfl,
      show configRunPairs (ec :: rest) =
        ec.runs.map (fun r => (ec.id, r)) ++ configRunPairs rest from rfl,
      ih, List.append_assoc]

theorem initCmpState_congr (l1 l2 : List EvalConfig) (ec1 ec2 : EvalConfig)
    (E : Finset ℕ) (hid : ec1.id = ec2.id) :
    initCmpState (l1 ++ ec1 :: l2) E = initCmpState (l1 ++ ec2 :: l2) E := by
  unfold initCmpState
  rw [List.foldl_append, List.foldl_append, List.foldl_cons, List.foldl_cons, hid]

theorem cmpPercentMap_congr (l1 l2 : List EvalConfig) (ec1 ec2 : EvalConfig)
    (st : CmpState) (size : ℕ) (hid : ec1.id = ec2.id) :
    cmpPercentMap (l1 ++ ec1 :: l2) st size =
      cmpPercentMap (l1 ++ ec2 :: l2) st size := by
  unfold cmpPercentMap
  rw [List.foldl_append, List.foldl_append, List.foldl_cons, List.foldl_cons, hid]

theorem cmp_dup_drop (taskRuns : List TaskRun)
    (requirements : List TaskRequirement) (string_to_json_key : String → String)
    (output_scores : List EvalOutputScore) (normalize_rating : ℚ → ℕ → ℚ)
    (eval_configs_filter : TaskRun → Bool) (ecs1 ecs2 : List EvalConfig)
    (ecid : ℕ) (rpre rmid rpost : List EvalRun) (r r2 : EvalRun)
    (hd : r2.dataset_id = r.dataset_id) :
    get_eval_configs_score_summary taskRuns requirements string_to_json_key
        output_scores normalize_rating eval_configs_filter
        (ecs1 ++ ⟨ecid, rpre ++ (r :: rmid) ++ (r2 :: rpost)⟩ :: ecs2) =
      get_eval_configs_score_summary taskRuns requirements string_to_json_key
        output_scores normalize_rating eval_configs_filter
        (ecs1 ++ ⟨ecid, rpre ++ (r :: rmid) ++ rpost⟩ :: ecs2) := by
  by_cases hcard : (((expectedItems taskRuns eval_configs_filter).map
      Prod.fst).toFinset.card = 0)
  · rw [show get_eval_configs_score_summary taskRuns requirements
        string_to_json_key output_scores normalize_rating eval_configs_filter
        (ecs1 ++ ⟨ecid, rpre ++ (r :: rmid) ++ (r2 :: rpost)⟩ :: ecs2) =
        ⟨[], [], 0, 0, 0, 0⟩ from by
      unfold get_eval_configs_score_summary
      rw [if_pos hcard],
      show get_eval_configs_score_summary taskRuns requirements
        string_to_json_key output_scores normalize_rating eval_configs_filter
        (ecs1 ++ ⟨ecid, rpre ++ (r :: rmid) ++ rpost⟩ :: ecs2) =
        ⟨[], [], 0, 0, 0, 0⟩ from by
      unfold get_eval_configs_score_summary
      rw [if_pos hcard]]
  · rw [get_eval_configs_score_summary_shape taskRuns requirements
      string_to_json_key output_scores normalize_rating eval_configs_filter
      (ecs1 ++ ⟨ecid, rpre ++ (r :: rmid) ++ (r2 :: rpost)⟩ :: ecs2) hcard,
      get_eval_configs_score_summary_shape taskRuns requirements
      string_to_json_key output_scores normalize_rating eval_configs_filter
      (ecs1 ++ ⟨ecid, rpre ++ (r :: rmid) ++ rpost⟩ :: ecs2) hcard]
    have hinit : initCmpState
        (ecs1 ++ ⟨ecid, rpre ++ (r :: rmid) ++ (r2 :: rpost)⟩ :: ecs2)
        ((expectedItems taskRuns eval_configs_filter).map Prod.fst).toFinset =
        initCmpState (ecs1 ++ ⟨ecid, rpre ++ (r :: rmid) ++ rpost⟩ :: ecs2)
        ((expectedItems taskRuns eval_configs_filter).map Prod.fst).toFinset :=
      initCmpState_congr _ _ _ _ _ rfl
    have hstate : cmpFold output_scores normalize_rating
        (score_key_map requirements string_to_json_key)
        (expectedItems taskRuns eval_configs_filter)
        (ecs1 ++ ⟨ecid, rpre ++ (r :: rmid) ++ (r2 :: rpost)⟩ :: ecs2)
        (initCmpState (ecs1 ++ ⟨ecid, rpre ++ (r :: rmid) ++ (r2 :: rpost)⟩ :: ecs2)
          ((expectedItems taskRuns eval_configs_filter).map Prod.fst).toFinset) =
        cmpFold output_scores normalize_rating
        (score_key_map requirements string_to_json_key)
        (expectedItems taskRuns eval_configs_filter)
        (ecs1 ++ ⟨ecid, rpre ++ (r :: rmid) ++ rpost⟩ :: ecs2)
        (initCmpState (ecs1 ++ ⟨ecid, rpre ++ (r :: rmid) ++ rpost⟩ :: ecs2)
          ((expectedItems taskRuns eval_configs_filter).map Prod.fst).toFinset) := by
      rw [hinit, cmpFold_eq_flat, cmpFold_eq_flat]
      rw [configRunPairs_append, configRunPairs_append]
      rw [show configRunPairs (EvalConfig.mk ecid
            (rpre ++ (r :: rmid) ++ (r2 :: rpost)) :: ecs2) =
          (rpre ++ (r :: rmid) ++ (r2 :: rpost)).map (fun q => (ecid, q)) ++
            configRunPairs ecs2 from rfl]
      rw [show configRunPairs (EvalConfig.mk ecid
            (rpre ++ (r :: rmid) ++ rpost) :: ecs2) =
          (rpre ++ (r :: rmid) ++ rpost).map (fun q => (ecid, q)) ++
            configRunPairs ecs2 from rfl]
      rw [List.map_append, List.map_append, List.map_append, List.map_append,
        List.map_cons, List.map_cons]
      rw [List.foldl_append, List.foldl_append, List.foldl_append,
        List.foldl_append, List.foldl_append, List.foldl_append,
        List.foldl_append, List.foldl_append, List.foldl_cons]
      congr 1
      set stmid := ((rpre.map (fun q => (ecid, q))).foldl
        (processCompareRun output_scores normalize_rating
          (score_key_map requirements string_to_json_key)
          (expectedItems taskRuns eval_configs_filter))
        ((configRunPairs ecs1).foldl
          (processCompareRun output_scores normalize_rating
            (score_key_map requirements string_to_json_key)
            (expectedItems taskRuns eval_configs_filter))
          (initCmpState (ecs1 ++ ⟨ecid, rpre ++ (r :: rmid) ++ rpost⟩ :: ecs2)
            ((expectedItems taskRuns eval_configs_filter).map Prod.fst).toFinset)))
      have hskip : processCompareRun output_scores normalize_rating
          (score_key_map requirements string_to_json_key)
          (expectedItems taskRuns eval_configs_filter)
          (List.foldl (processCompareRun output_scores normalize_rating
              (score_key_map requirements string_to_json_key)
              (expectedItems taskRuns eval_configs_filter)) stmid
            ((ecid, r) :: rmid.map (fun q => (ecid, q))))
          (ecid, r2) =
          List.foldl (processCompareRun output_scores normalize_rating
              (score_key_map requirements string_to_json_key)
              (expectedItems taskRuns eval_configs_filter)) stmid
            ((ecid, r) :: rmid.map (fun q => (ecid, q))) := by
        apply processCompareRun_skip
        cases hitem : alistLookup (expectedItems taskRuns eval_configs_filter)
            r.dataset_id with
        | none =>
          left
          show alistLookup (expectedItems taskRuns eval_configs_filter)
            r2.dataset_id = none
          rw [hd]
          exact hitem
        | some item =>
          right
          show r2.dataset_id ∉ _
          rw [hd, List.foldl_cons]
          apply foldl_processCompareRun_not_mem_preserved
          exact processCompareRun_not_mem_after output_scores normalize_rating
            (score_key_map requirements string_to_json_key)
            (expectedItems taskRuns eval_configs_filter) stmid ecid r
            (by rw [hitem]; simp)
      exact congrArg (fun st => List.foldl (processCompareRun output_scores
        normalize_rating (score_key_map requirements string_to_json_key)
        (expectedItems taskRuns eval_configs_filter)) st
        (rpost.map (fun q => (ecid, q)))) hskip
    rw [hstate, cmpPercentMap_congr ecs1 ecs2
      ⟨ecid, rpre ++ (r :: rmid) ++ (r2 :: rpost)⟩
      ⟨ecid, rpre ++ (r :: rmid) ++ rpost⟩ _ _ rfl]

/-- C1: no double counting, first-seen wins. Feeding a second `EvaluationRun`
with the same run-configuration id and the same dataset item id (aggregator),
or a second run with the same dataset item id inside one eval-configuration's
stream (comparator), produces a summary identical to feeding only the first:
the duplicate is silently ignored and affects no mean, count or
percent-complete value. -/
theorem no_double_counting :
    (∀ (taskRuns : List TaskRun) (eval_set_filter : TaskRun → Bool)
      (task_runs_configs : List TaskRunConfig)
      (output_scores : List EvalOutputScore) (pre mid post : List EvalRun)
      (r r2 : EvalRun),
      r2.task_run_config_id = r.task_run_config_id →
      r2.dataset_id = r.dataset_id →
      get_eval_config_score_summary taskRuns eval_set_filter task_runs_configs
          output_scores (pre ++ (r :: mid) ++ (r2 :: post)) =
        get_eval_config_score_summary taskRuns eval_set_filter task_runs_configs
          output_scores (pre ++ (r :: mid) ++ post)) ∧
    (∀ (taskRuns : List TaskRun) (requirements : List TaskRequirement)
      (string_to_json_key : String → String)
      (output_scores : List EvalOutputScore) (normalize_rating : ℚ → ℕ → ℚ)
      (eval_configs_filter : TaskRun → Bool) (ecs1 ecs2 : List EvalConfig)
      (ecid : ℕ) (rpre rmid rpost : List EvalRun) (r r2 : EvalRun),
      r2.dataset_id = r.dataset_id →
      get_eval_configs_score_summary taskRuns requirements string_to_json_key
          output_scores normalize_rating eval_configs_filter
          (ecs1 ++ ⟨ecid, rpre ++ (r :: rmid) ++ (r2 :: rpost)⟩ :: ecs2) =
        get_eval_configs_score_summary taskRuns requirements string_to_json_key
          output_scores normalize_rating eval_configs_filter
          (ecs1 ++ ⟨ecid, rpre ++ (r :: rmid) ++ rpost⟩ :: ecs2)) := by
  constructor
  · intro taskRuns eval_set_filter task_runs_configs output_scores pre mid post
      r r2 hc hd
    exact agg_dup_drop taskRuns eval_set_filter task_runs_configs output_scores
      pre mid post r r2 hc hd
  · intro taskRuns requirements string_to_json_key output_scores normalize_rating
      eval_configs_filter ecs1 ecs2 ecid rpre rmid rpost r r2 hd
    exact cmp_dup_drop taskRuns requirements string_to_json_key output_scores
      normalize_rating eval_configs_filter ecs1 ecs2 ecid rpre rmid rpost r r2 hd

/-- C10: completeness maps are total while results are partial. With a
non-empty expected set, `run_config_percent_complete` has an entry for every
one of the task's run-configurations (with value 0 when no run of that
configuration was counted) and `eval_config_percent_complete` has an entry
for every eval-configuration of the evaluator; by contrast the results
mappings omit a run-configuration with no counted run and an
eval-configuration with no usable pair, so a configuration can appear in the
percent-complete map yet be absent from results. -/
theorem completeness_total_omit_uncounted (taskRuns : List TaskRun)
    (eval_set_filter : TaskRun → Bool) (task_runs_configs : List TaskRunConfig)
    (output_scores : List EvalOutputScore) (eval_runs : List EvalRun)
    (s : EvalResultSummary)
    (hs : get_eval_config_score_summary taskRuns eval_set_filter task_runs_configs
      output_scores eval_runs = .ok s)
    (requirements : List TaskRequirement) (string_to_json_key : String → String)
    (normalize_rating : ℚ → ℕ → ℚ) (eval_configs_filter : TaskRun → Bool)
    (eval_configs : List EvalConfig)
    (hne : ¬ (((expectedItems taskRuns eval_configs_filter).map
      Prod.fst).toFinset.card = 0)) :
    (∀ rc ∈ task_runs_configs,
      (alistLookup s.run_config_percent_complete rc.id).isSome) ∧
    (∀ rc ∈ task_runs_configs,
      countedFor rc.id (dataset_ids_in_filter taskRuns eval_set_filter)
          eval_runs = [] →
        alistLookup s.results rc.id = none ∧
        alistLookup s.run_config_percent_complete rc.id = some 0) ∧
    (∀ ec ∈ eval_configs,
      (alistLookup (get_eval_configs_score_summary taskRuns requirements
          string_to_json_key output_scores normalize_rating eval_configs_filter
          eval_configs).eval_config_percent_complete ec.id).isSome) ∧
    (∀ ec ∈ eval_configs,
      (∀ q ∈ countedCmp ec.id (expectedItems taskRuns eval_configs_filter)
          ((expectedItems taskRuns eval_configs_filter).map Prod.fst).toFinset
          (configRunPairs eval_configs),
        ∀ o ∈ output_scores,
          human_score_from_task_run q.2 o.json_key
            (score_key_map requirements string_to_json_key) = none ∨
          alistLookup q.1.scores o.json_key = none) →
      alistLookup (get_eval_configs_score_summary taskRuns requirements
          string_to_json_key output_scores normalize_rating eval_configs_filter
          eval_configs).results ec.id = none) := by
  by_cases hcard : (dataset_ids_in_filter taskRuns eval_set_filter).card = 0
  · rw [show get_eval_config_score_summary taskRuns eval_set_filter
        task_runs_configs output_scores eval_runs = .error .emptyDataset from by
      unfold get_eval_config_score_summary
      rw [if_pos hcard]] at hs
    exact absurd hs (by simp)
  · rw [get_eval_config_score_summary_ok_shape taskRuns eval_set_filter
      task_runs_configs output_scores eval_runs hcard] at hs
    obtain rfl := (Except.ok.inj hs).symm
    dsimp only
    refine ⟨?_, ?_, ?_, ?_⟩
    · intro rc hrcmem
      rw [percentCompleteMap_lookup_of_mem task_runs_configs _ _ rc.id
        (List.mem_map.mpr ⟨rc, hrcmem, rfl⟩)]
      rfl
    · intro rc hrcmem hcnt
      have hview := aggView_final taskRuns eval_set_filter task_runs_configs
        output_scores eval_runs rc.id (List.mem_map.mpr ⟨rc, hrcmem, rfl⟩)
      have hts := congrArg RCView.ts hview
      have hrem := congrArg RCView.rem hview
      have hpinc := congrArg RCView.pinc hview
      simp only [aggView] at hts hrem hpinc
      rw [hcnt] at hts hpinc
      constructor
      · rw [summaryResults_lookup, hts]
        rfl
      · rw [percentCompleteMap_lookup_of_mem task_runs_configs _ _ rc.id
          (List.mem_map.mpr ⟨rc, hrcmem, rfl⟩)]
        have hcards : ((alistLookup (eval_runs.foldl (processEvalRun output_scores)
            (initAggState task_runs_configs
              (dataset_ids_in_filter taskRuns eval_set_filter))).remaining_expected_dataset_ids
            rc.id).getD ∅).card =
            (dataset_ids_in_filter taskRuns eval_set_filter).card := by
          rw [hrem]
          simp only [Option.getD_some]
          have hlen := countedFor_length_add_card rc.id eval_runs
            (dataset_ids_in_filter taskRuns eval_set_filter)
          rw [hcnt] at hlen
          simpa using hlen
        rw [show (alistLookup (eval_runs.foldl (processEvalRun output_scores)
            (initAggState task_runs_configs
              (dataset_ids_in_filter taskRuns eval_set_filter))).incomplete_counts
            rc.id).getD 0 = 0 from by
          rw [hpinc]
          simp]
        rw [hcards]
        congr 1
        have hpos : 0 < ((dataset_ids_in_filter taskRuns eval_set_filter).card : ℚ) := by
          have : 0 < (dataset_ids_in_filter taskRuns eval_set_filter).card :=
            Nat.pos_of_ne_zero hcard
          exact_mod_cast this
        rw [zero_add]
        rw [div_self (ne_of_gt hpos)]
        ring
    · intro ec hecmem
      rw [get_eval_configs_score_summary_shape taskRuns requirements
        string_to_json_key output_scores normalize_rating eval_configs_filter
        eval_configs hne]
      dsimp only
      rw [cmpPercentMap_lookup_of_mem eval_configs _ _ ec.id
        (List.mem_map.mpr ⟨ec, hecmem, rfl⟩)]
      rfl
    · intro ec hecmem hinv
      rw [get_eval_configs_score_summary_shape taskRuns requirements
        string_to_json_key output_scores normalize_rating eval_configs_filter
        eval_configs hne]
      dsimp only
      have hview := cmpView_final output_scores normalize_rating
        (score_key_map requirements string_to_json_key)
        (expectedItems taskRuns eval_configs_filter) eval_configs
        ((expectedItems taskRuns eval_configs_filter).map Prod.fst).toFinset
        ec.id (List.mem_map.mpr ⟨ec, hecmem, rfl⟩)
      have hcalcs := congrArg CmpView.calcs hview
      simp only [cmpView] at hcalcs
      rw [compareResults_lookup, hcalcs,
        applyCmpRuns_all_invalid normalize_rating
          (score_key_map requirements string_to_json_key) output_scores _ hinv none]
      rfl

/-- Witness for C1 at a concrete input: duplicating a run changes neither
summary. -/
theorem no_double_counting_witness :
    (get_eval_config_score_summary [⟨1, ⟨none⟩⟩] (fun _ => true) [⟨10⟩]
        [⟨"acc", 0⟩]
        ([] ++ (⟨some 10, 1, [("acc", 1)]⟩ :: []) ++
          (⟨some 10, 1, [("acc", 1)]⟩ :: [])) =
      get_eval_config_score_summary [⟨1, ⟨none⟩⟩] (fun _ => true) [⟨10⟩]
        [⟨"acc", 0⟩] ([] ++ (⟨some 10, 1, [("acc", 1)]⟩ :: []) ++ [])) ∧
    (get_eval_configs_score_summary [⟨1, ⟨some ⟨some 1, []⟩⟩⟩] [] id
        [⟨"overall_rating", 0⟩] (fun q _ => q) (fun _ => true)
        ([] ++ ⟨20, [] ++ (⟨none, 1, [("overall_rating", 1)]⟩ :: []) ++
          (⟨none, 1, [("overall_rating", 1)]⟩ :: [])⟩ :: []) =
      get_eval_configs_score_summary [⟨1, ⟨some ⟨some 1, []⟩⟩⟩] [] id
        [⟨"overall_rating", 0⟩] (fun q _ => q) (fun _ => true)
        ([] ++ ⟨20, [] ++ (⟨none, 1, [("overall_rating", 1)]⟩ :: []) ++ []⟩ :: [])) :=
  ⟨no_double_counting.1 [⟨1, ⟨none⟩⟩] (fun _ => true) [⟨10⟩] [⟨"acc", 0⟩]
      [] [] [] ⟨some 10, 1, [("acc", 1)]⟩ ⟨some 10, 1, [("acc", 1)]⟩ rfl rfl,
   no_double_counting.2 [⟨1, ⟨some ⟨some 1, []⟩⟩⟩] [] id [⟨"overall_rating", 0⟩]
      (fun q _ => q) (fun _ => true) [] [] 20 [] [] []
      ⟨none, 1, [("overall_rating", 1)]⟩ ⟨none, 1, [("overall_rating", 1)]⟩ rfl⟩

/-- Witness for C2 at a concrete input: one counted run reporting "acc". -/
theorem mean_computation_and_omission_witness :
    ((10 : ℕ) ∈ ([⟨10⟩] : List TaskRunConfig).map TaskRunConfig.id) ∧
    (EvalOutputScore.mk "acc" 0 ∈ [EvalOutputScore.mk "acc" 0]) ∧
    (([EvalOutputScore.mk "acc" 0].map EvalOutputScore.json_key).Nodup) ∧
    (get_eval_config_score_summary [⟨1, ⟨none⟩⟩] (fun _ => true) [⟨10⟩]
      [⟨"acc", 0⟩] [⟨some 10, 1, [("acc", 1)]⟩] =
      .ok ⟨[(10, [("acc", ⟨1⟩)])], [(10, 1)], 1⟩) ∧
    ((alistLookup (List.foldl (processEvalRun [⟨"acc", 0⟩])
        (initAggState [⟨10⟩] (dataset_ids_in_filter [⟨1, ⟨none⟩⟩] (fun _ => true)))
        [⟨some 10, 1, [("acc", 1)]⟩]).incomplete_counts 10).getD 0 =
      (countedFor 10 (dataset_ids_in_filter [⟨1, ⟨none⟩⟩] (fun _ => true))
        [⟨some 10, 1, [("acc", 1)]⟩]).countP (runIncomplete [⟨"acc", 0⟩])) := by
  have hok : get_eval_config_score_summary [⟨1, ⟨none⟩⟩] (fun _ => true) [⟨10⟩]
      [⟨"acc", 0⟩] [⟨some 10, 1, [("acc", 1)]⟩] =
      .ok ⟨[(10, [("acc", ⟨1⟩)])], [(10, 1)], 1⟩ := by
    simp [get_eval_config_score_summary, dataset_ids_in_filter, initAggState,
      processEvalRun, scoreKeyStep, summaryResults, percentCompleteMap,
      alistLookup, alistInsert]
  refine ⟨by decide, by decide, by decide, hok, ?_⟩
  exact (mean_computation_and_omission [⟨1, ⟨none⟩⟩] (fun _ => true) [⟨10⟩]
    [⟨"acc", 0⟩] [⟨some 10, 1, [("acc", 1)]⟩] 10 "acc" 0 (by decide) (by decide)
    (by decide) ⟨[(10, [("acc", ⟨1⟩)])], [(10, 1)], 1⟩ hok).2.2

/-- Witness for C3 at a concrete input. -/
theorem closed_accounting_witness :
    ((10 : ℕ) ∈ ([⟨10⟩] : List TaskRunConfig).map TaskRunConfig.id) ∧
    (∀ q, alistLookup ((⟨[(10, [("acc", ⟨1⟩)])], [(10, 1)], 1⟩ :
        EvalResultSummary).run_config_percent_complete) 10 = some q →
      0 ≤ q ∧ q ≤ 1) := by
  have hok : get_eval_config_score_summary [⟨1, ⟨none⟩⟩] (fun _ => true) [⟨10⟩]
      [⟨"acc", 0⟩] [⟨some 10, 1, [("acc", 1)]⟩] =
      .ok ⟨[(10, [("acc", ⟨1⟩)])], [(10, 1)], 1⟩ := by
    simp [get_eval_config_score_summary, dataset_ids_in_filter, initAggState,
      processEvalRun, scoreKeyStep, summaryResults, percentCompleteMap,
      alistLookup, alistInsert]
  refine ⟨by decide, ?_⟩
  exact (closed_accounting [⟨1, ⟨none⟩⟩] (fun _ => true) [⟨10⟩] [⟨"acc", 0⟩]
    [⟨some 10, 1, [("acc", 1)]⟩] 10 (by decide)
    ⟨[(10, [("acc", ⟨1⟩)])], [(10, 1)], 1⟩ hok).2.2

/-- Witness for C6 at a concrete input: one eval-config, one item rated 1,
one run scoring "overall_rating". -/
theorem correlation_requires_pairing_witness :
    ((20 : ℕ) ∈ ([⟨20, [⟨none, 1, [("overall_rating", 1)]⟩]⟩] :
        List EvalConfig).map EvalConfig.id) ∧
    (EvalOutputScore.mk "overall_rating" 0 ∈ [EvalOutputScore.mk "overall_rating" 0]) ∧
    (validPairs (fun q _ => q) (score_key_map [] id) "overall_rating" 0
        (countedCmp 20 (expectedItems [⟨1, ⟨some ⟨some 1, []⟩⟩⟩] (fun _ => true))
          ((expectedItems [⟨1, ⟨some ⟨some 1, []⟩⟩⟩] (fun _ => true)).map
            Prod.fst).toFinset
          (configRunPairs [⟨20, [⟨none, 1, [("overall_rating", 1)]⟩]⟩])) ≠ [] →
      ∃ inner, alistLookup (get_eval_configs_score_summary [⟨1, ⟨some ⟨some 1, []⟩⟩⟩]
          [] id [⟨"overall_rating", 0⟩] (fun q _ => q) (fun _ => true)
          [⟨20, [⟨none, 1, [("overall_rating", 1)]⟩]⟩]).results 20 = some inner ∧
        alistLookup inner "overall_rating" = some ((CorrelationCalculator.mk
          (validPairs (fun q _ => q) (score_key_map [] id) "overall_rating" 0
            (countedCmp 20 (expectedItems [⟨1, ⟨some ⟨some 1, []⟩⟩⟩] (fun _ => true))
              ((expectedItems [⟨1, ⟨some ⟨some 1, []⟩⟩⟩] (fun _ => true)).map
                Prod.fst).toFinset
              (configRunPairs [⟨20, [⟨none, 1, [("overall_rating", 1)]⟩]⟩])))).calculate_correlation)) :=
  ⟨by decide, by decide,
   (correlation_requires_pairing [⟨1, ⟨some ⟨some 1, []⟩⟩⟩] [] id
     [⟨"overall_rating", 0⟩] (fun q _ => q) (fun _ => true)
     [⟨20, [⟨none, 1, [("overall_rating", 1)]⟩]⟩] 20 "overall_rating" 0
     (by decide) (by decide) (by decide)).2⟩

/-- Witness for C8 at a concrete input: a run with no run-configuration id. -/
theorem exclusion_rules_witness :
    ((⟨none, 1, []⟩ : EvalRun).task_run_config_id = none ∨
      (∃ rc, (⟨none, 1, []⟩ : EvalRun).task_run_config_id = some rc ∧
        rc ∉ ([⟨10⟩] : List TaskRunConfig).map TaskRunConfig.id) ∨
      (⟨none, 1, []⟩ : EvalRun).dataset_id ∉
        dataset_ids_in_filter [⟨1, ⟨none⟩⟩] (fun _ => true)) ∧
    get_eval_config_score_summary [⟨1, ⟨none⟩⟩] (fun _ => true) [⟨10⟩]
        [⟨"acc", 0⟩] ([] ++ ⟨none, 1, []⟩ :: []) =
      get_eval_config_score_summary [⟨1, ⟨none⟩⟩] (fun _ => true) [⟨10⟩]
        [⟨"acc", 0⟩] ([] ++ []) :=
  ⟨Or.inl rfl,
   exclusion_rules [⟨1, ⟨none⟩⟩] (fun _ => true) [⟨10⟩] [⟨"acc", 0⟩] [] []
     ⟨none, 1, []⟩ (Or.inl rfl)⟩

/-- Witness for C10 at a concrete input. -/
theorem completeness_total_omit_uncounted_witness :
    (¬ (((expectedItems [⟨1, ⟨none⟩⟩] (fun _ => true)).map
      Prod.fst).toFinset.card = 0)) ∧
    (∀ rc ∈ ([⟨10⟩] : List TaskRunConfig),
      (alistLookup ((⟨[(10, [("acc", ⟨1⟩)])], [(10, 1)], 1⟩ :
        EvalResultSummary).run_config_percent_complete) rc.id).isSome) := by
  have hok : get_eval_config_score_summary [⟨1, ⟨none⟩⟩] (fun _ => true) [⟨10⟩]
      [⟨"acc", 0⟩] [⟨some 10, 1, [("acc", 1)]⟩] =
      .ok ⟨[(10, [("acc", ⟨1⟩)])], [(10, 1)], 1⟩ := by
    simp [get_eval_config_score_summary, dataset_ids_in_filter, initAggState,
      processEvalRun, scoreKeyStep, summaryResults, percentCompleteMap,
      alistLookup, alistInsert]
  refine ⟨by decide, ?_⟩
  exact (completeness_total_omit_uncounted [⟨1, ⟨none⟩⟩] (fun _ => true) [⟨10⟩]
    [⟨"acc", 0⟩] [⟨some 10, 1, [("acc", 1)]⟩]
    ⟨[(10, [("acc", ⟨1⟩)])], [(10, 1)], 1⟩ hok [] id (fun q _ => q)
    (fun _ => true) [⟨20, []⟩] (by decide)).1
